import Mathlib

/-!
Shallow embedding of the Nex-Store backend reconciliation core
(`src/backend/server.py`) and proofs about it.

Modelling conventions, used throughout:
* All money amounts are integers in paisa (`Paisa := Int`), as in the source
  ("All amounts stored in PAISA").
* Timestamps are integers counting minutes (`Time := Int`); the source stores
  ISO-8601 strings and compares them lexicographically, which agrees with
  chronological (hence numeric) comparison.
* The SHA-256 content fingerprint of an SMS is modelled by the trimmed raw
  text itself (`generate_sms_fingerprint`); the hash is injective for all
  practical purposes, and the source only ever compares fingerprints for
  equality, so equal trimmed texts and equal fingerprints coincide.
* MongoDB collections are Lean lists in insertion order; `find_one` is
  `List.find?`, `update_one` updates the first match (`updateFirst`),
  `update_many` maps over all matches, `insert_one` appends.
* Python's falsy tests (`if not x:`, `a or b`) on optional numbers/strings
  treat `0` and `""` as absent; the helpers `pyOrInt` / `pyOrStr` reproduce
  this.
* Python exceptions (`HTTPException`, `ValueError`) are modelled with
  `Except`; an operation returns the database state it has produced up to the
  point of the raise, so "no mutation before the error" is a provable
  property, not an assumption.
* Free-text description/reason strings built with f-strings in the source are
  abstracted to fixed tags (their content is never branched on).
-/

namespace NexStore

abbrev Paisa := Int
abbrev Time := Int

/-! ### Generic list helpers (MongoDB-style update semantics) -/

/-- `update_one`: rewrite the first element satisfying `p`. -/
def updateFirst {α : Type} (p : α → Bool) (f : α → α) : List α → List α
  | [] => []
  | x :: xs => if p x then f x :: xs else x :: updateFirst p f xs

/-! ### Character classes, mirroring Python's `re` on ASCII input -/

/-- Python regex `\s` (ASCII range): space, tab, newline, CR, VT, FF. -/
def isSpaceChar (c : Char) : Bool :=
  c = ' ' || c = '\t' || c = '\n' || c = '\r' || c.toNat = 11 || c.toNat = 12

/-- Python regex `\w` on ASCII input: letters, digits, underscore. -/
def isWordChar (c : Char) : Bool :=
  c.isAlpha || c.isDigit || c = '_'

/-- Python `str.strip()` on a character list. -/
def pyStripList (cs : List Char) : List Char :=
  ((cs.dropWhile isSpaceChar).reverse.dropWhile isSpaceChar).reverse

/-- Python `str.strip()`. -/
def pyStrip (s : String) : String :=
  String.mk (pyStripList s.data)

/-! ### `parse_sms_message` (server.py:506-550)

Each of the four extractions is an independent best-effort regex search; they
are modelled as deterministic left-to-right scans which agree with the
backtracking regex engine on these particular patterns (for each pattern, a
shorter match of a maximal-munch piece can only move a mandatory character
class onto a character it cannot match, so maximal munch is equivalent). -/

/-- The amount pattern `Rs\.?\s*([0-9,]+\.?[0-9]*)` (IGNORECASE), attempted at
the head of the list; returns the captured group. -/
def matchAmountAt (cs : List Char) : Option (List Char) :=
  match cs with
  | c1 :: c2 :: rest =>
    if (c1 = 'R' || c1 = 'r') && (c2 = 'S' || c2 = 's') then
      let rest1 := match rest with
        | '.' :: t => t
        | _ => rest
      let rest2 := rest1.dropWhile isSpaceChar
      let digs := rest2.takeWhile (fun c => c.isDigit || c = ',')
      if digs.isEmpty then none
      else
        match rest2.drop digs.length with
        | '.' :: t => some (digs ++ '.' :: t.takeWhile Char.isDigit)
        | _ => some digs
    else none
  | _ => none

/-- `re.search` for the amount pattern: leftmost position where it matches. -/
def findAmountGroup : List Char → Option (List Char)
  | [] => none
  | c :: rest =>
    match matchAmountAt (c :: rest) with
    | some g => some g
    | none => findAmountGroup rest

/-- Numeric value of a list of decimal digits. -/
def natOfDigits (l : List Char) : Nat :=
  l.foldl (fun a c => a * 10 + (c.toNat - 48)) 0

/-- Round `n / d` to the nearest integer, ties to even — Python's `round`. -/
def roundHalfEven (n d : Nat) : Nat :=
  let q := n / d
  let r := n % d
  if 2 * r < d then q
  else if d < 2 * r then q + 1
  else if q % 2 = 0 then q else q + 1

/-- `rupees_to_paisa(float(group.replace(',', '')))` on the captured amount
group: drop commas, split at the optional dot, and round the exact rational
value `rupees * 100` half-to-even.  A group whose comma-stripped text is empty
or a lone dot makes Python's `float` raise `ValueError`, modelled as `.error`.
(The source goes through IEEE doubles; on amounts with at most a few fraction
digits the double computation returns the same integer as the exact rational
one, and no theorem below depends on the corner cases where they could
differ.) -/
def paisaOfAmountGroup (g : List Char) : Except String Paisa :=
  let s := g.filter (fun c => c ≠ ',')
  let intPart := s.takeWhile Char.isDigit
  let fracPart := match s.drop intPart.length with
    | '.' :: t => t
    | _ => []
  if intPart.isEmpty && fracPart.isEmpty then
    Except.error "could not convert string to float"
  else
    let k := fracPart.length
    Except.ok (Int.ofNat (roundHalfEven
      (natOfDigits intPart * 100 * 10 ^ k + natOfDigits fracPart * 100) (10 ^ k)))

/-- Word-boundary `\b` right after a digit: the next character, if any, must
not be a word character. -/
def boundaryAfter (rest : List Char) : Bool :=
  match rest with
  | [] => true
  | c :: _ => ¬ isWordChar c

/-- Phone pattern 1, `\d+[\*X]+(\d{3})\b` (IGNORECASE), at the head. -/
def matchPhone1At (cs : List Char) : Option (List Char) :=
  let ds := cs.takeWhile Char.isDigit
  if ds.isEmpty then none
  else
    let r1 := cs.drop ds.length
    let stars := r1.takeWhile (fun c => c = '*' || c = 'X' || c = 'x')
    if stars.isEmpty then none
    else
      match r1.drop stars.length with
      | a :: b :: c :: rest =>
        if a.isDigit && b.isDigit && c.isDigit && boundaryAfter rest then
          some [a, b, c]
        else none
      | _ => none

/-- Phone pattern 2, `[X\*]+(\d{3})\b` (IGNORECASE), at the head. -/
def matchPhone2At (cs : List Char) : Option (List Char) :=
  let stars := cs.takeWhile (fun c => c = '*' || c = 'X' || c = 'x')
  if stars.isEmpty then none
  else
    match cs.drop stars.length with
    | a :: b :: c :: rest =>
      if a.isDigit && b.isDigit && c.isDigit && boundaryAfter rest then
        some [a, b, c]
      else none
    | _ => none

/-- Consume a literal caseless ASCII word at the head; returns the rest. -/
def matchLitCaseless : List Char → List Char → Option (List Char)
  | [], cs => some cs
  | _ :: _, [] => none
  | l :: ls, c :: cs => if c.toLower = l then matchLitCaseless ls cs else none

/-- `(\d{3})\s+for` at the head (the tail of phone pattern 3). -/
def matchDigits3WsFor (cs : List Char) : Option (List Char) :=
  match cs with
  | a :: b :: c :: rest =>
    if a.isDigit && b.isDigit && c.isDigit then
      let ws := rest.takeWhile isSpaceChar
      if ws.isEmpty then none
      else
        match matchLitCaseless ['f', 'o', 'r'] (rest.drop ws.length) with
        | some _ => some [a, b, c]
        | none => none
    else none
  | _ => none

/-- The lazy `\S*?(\d{3})\s+for` part of phone pattern 3: try the digit group
at each successive position, never crossing whitespace. -/
def phone3Lazy : List Char → Option (List Char)
  | [] => none
  | c :: rest =>
    match matchDigits3WsFor (c :: rest) with
    | some g => some g
    | none => if isSpaceChar c then none else phone3Lazy rest

/-- Phone pattern 3, `from\s+\S*?(\d{3})\s+for` (IGNORECASE), at the head. -/
def matchPhone3At (cs : List Char) : Option (List Char) :=
  match matchLitCaseless ['f', 'r', 'o', 'm'] cs with
  | none => none
  | some r =>
    let ws := r.takeWhile isSpaceChar
    if ws.isEmpty then none else phone3Lazy (r.drop ws.length)

/-- `re.search`: leftmost position where the head matcher succeeds. -/
def searchFirst (f : List Char → Option (List Char)) : List Char → Option (List Char)
  | [] => none
  | c :: rest =>
    match f (c :: rest) with
    | some g => some g
    | none => searchFirst f rest

/-- The three phone patterns tried in their fixed priority order; first
matching pattern wins (server.py:524-533). -/
def findLast3 (cs : List Char) : Option String :=
  match searchFirst matchPhone1At cs with
  | some d => some (String.mk d)
  | none =>
    match searchFirst matchPhone2At cs with
    | some d => some (String.mk d)
    | none => (searchFirst matchPhone3At cs).map String.mk

/-- The RRN pattern `RRN\s*[:\-]?\s*([A-Za-z0-9]+)` (IGNORECASE), at the head. -/
def matchRrnAt (cs : List Char) : Option (List Char) :=
  match matchLitCaseless ['r', 'r', 'n'] cs with
  | none => none
  | some r =>
    let r1 := r.dropWhile isSpaceChar
    let r2 := match r1 with
      | ':' :: t => t
      | '-' :: t => t
      | _ => r1
    let r3 := r2.dropWhile isSpaceChar
    let alnum := r3.takeWhile Char.isAlphanum
    if alnum.isEmpty then none else some alnum

/-- The result of `parse_sms_message`: every field independently optional. -/
structure ParsedSMS where
  amount : Option Paisa
  last3 : Option String
  rrn : Option String
  method : Option String
  remark : Option String
deriving Repr, DecidableEq

/-- Python `str.split(sep)` on a character list (keeps empty pieces). -/
def splitOnChar (sep : Char) : List Char → List (List Char)
  | [] => [[]]
  | c :: cs =>
    let r := splitOnChar sep cs
    if c = sep then [] :: r
    else
      match r with
      | [] => [[c]]
      | p :: ps => (c :: p) :: ps

/-- Python `str.split(sep)`. -/
def pySplit (s : String) (sep : Char) : List String :=
  (splitOnChar sep s.data).map String.mk

/-- The remark/method extraction (server.py:541-548): the text after the last
comma, split on `/`, both halves stripped. -/
def findMethodRemark (raw : String) : Option String × Option String :=
  let parts := pySplit raw ','
  if 2 ≤ parts.length then
    let lastPart := pyStrip (parts.getLastD "")
    if lastPart.data.contains '/' then
      let methodParts := pySplit lastPart '/'
      if 2 ≤ methodParts.length then
        (some (pyStrip (methodParts.getLastD "")), some (pyStrip (methodParts.headD "")))
      else (none, none)
    else (none, none)
  else (none, none)

/-- `parse_sms_message` (server.py:506-550).  The amount extraction can raise
`ValueError` inside `float(...)` (e.g. when the captured group consists only
of commas); this propagates as `.error` and is the one way parsing fails. -/
def parse_sms_message (raw : String) : Except String ParsedSMS :=
  let cs := raw.data
  match (match findAmountGroup cs with
         | none => Except.ok (none : Option Paisa)
         | some g => (paisaOfAmountGroup g).map some) with
  | Except.error e => Except.error e
  | Except.ok amt =>
    let mr := findMethodRemark raw
    Except.ok
      { amount := amt
        last3 := findLast3 cs
        rrn := (searchFirst matchRrnAt cs).map String.mk
        method := mr.1
        remark := mr.2 }

/-! ### Data model

Record ids (users, orders, SMS docs) are natural numbers drawn from a single
fresh-id counter `DB.nextId`, standing in for the source's `uuid4` strings
(which are unique for all practical purposes).  Transaction records carry no
id of their own here — the source gives them a uuid it never reads back. -/

structure User where
  uid : Nat
  username : String
  balance : Paisa          -- wallet_balance_paisa
  blocked : Bool
deriving Repr, DecidableEq

structure WalletTx where
  user : Nat               -- user_id
  txType : String          -- type
  amount : Paisa           -- amount_paisa (signed)
  orderRef : Option Nat    -- order_id / reference_id
  balanceBefore : Option Paisa   -- balance_before_paisa, when the writer records it
  balanceAfter : Option Paisa    -- balance_after_paisa
  description : String
  createdAt : Time
deriving Repr, DecidableEq

structure Order where
  oid : Nat
  orderType : String       -- "product_topup" | "wallet_load"
  userId : Nat
  playerUid : Option String
  lockedPrice : Paisa      -- locked_price_paisa
  loadAmount : Paisa       -- load_amount_paisa (0 when absent)
  walletUsed : Paisa       -- wallet_used_paisa
  paymentRequired : Paisa  -- payment_required_paisa
  paymentAmount : Paisa    -- payment_amount_paisa
  paymentLast3 : Option String
  paymentRrn : Option String
  paymentReceived : Paisa  -- payment_received_paisa
  rawMessage : Option String
  smsFingerprint : Option String
  overpayment : Paisa      -- overpayment_paisa
  status : String
  automationState : Option String
  suspiciousReason : Option String
  manualPendingReason : Option String
  retryCount : Nat
  createdAt : Time
  updatedAt : Time
  queuedAt : Option Time
  processingStartedAt : Option Time
  completedAt : Option Time
  expiredAt : Option Time
deriving Repr, DecidableEq

structure SmsDoc where
  sid : Nat
  rawMessage : String
  fingerprint : String
  amount : Option Paisa    -- amount_paisa
  last3 : Option String    -- last3digits
  rrn : Option String
  method : Option String
  remark : Option String
  receivedAt : Option Time -- received_at (forwarder path only)
  parsedAt : Time
  used : Bool
  matchedOrderId : Option Nat
  matchedAt : Option Time
  suspicious : Bool
  suspiciousReason : Option String
  manualReviewReason : Option String
  status : Option String
deriving Repr, DecidableEq

structure Settings where
  autoPaymentCheck : Bool       -- auto_payment_check
  autoTopup : Bool              -- auto_topup
  maxOverpaymentRatio : Nat     -- max_overpayment_ratio
  maxWalletCredit : Paisa       -- max_wallet_credit
  automationFailThreshold : Nat -- automation_fail_threshold
  automationFailWindowMinutes : Nat
  orderExpiryMinutes : Nat      -- order_expiry_minutes
  paymentMatchWindowMinutes : Nat
deriving Repr, DecidableEq

/-- `DEFAULT_SYSTEM_SETTINGS` (server.py:61-73). -/
def defaultSettings : Settings :=
  { autoPaymentCheck := true
    autoTopup := false
    maxOverpaymentRatio := 3
    maxWalletCredit := 1000000
    automationFailThreshold := 5
    automationFailWindowMinutes := 10
    orderExpiryMinutes := 1440
    paymentMatchWindowMinutes := 60 }

structure Alert where
  alertType : String
  severity : String        -- info | warning | critical
  message : String
deriving Repr, DecidableEq

/-- The whole persistent + in-process state: the MongoDB collections the
reconciliation core touches, the settings singleton (DB document and cache
always agree in the source's read-after-write discipline, so they are one
field), and the in-memory circuit-breaker failure window. -/
structure DB where
  users : List User
  orders : List Order
  sms : List SmsDoc
  txs : List WalletTx
  alerts : List Alert
  settings : Settings
  failures : List Time     -- _automation_failures
  nextId : Nat
deriving Repr, DecidableEq

/-- The empty state of a fresh deployment. -/
def dbInit : DB :=
  { users := [], orders := [], sms := [], txs := [], alerts := []
    settings := defaultSettings, failures := [], nextId := 0 }

/-! ### Money utility -/

/-- `round_up_payment_paisa` (server.py:438-460): ceilings on the exact
rational `amount/100` rupees; `math.ceil` on the source's float sees the same
integer because a quotient of a paisa integer by 100 never lands within a
double ulp of a different integer at these magnitudes. -/
def round_up_payment_paisa (amountPaisa : Paisa) : Paisa :=
  if amountPaisa ≤ 0 then 0
  else if amountPaisa < 10000 then 100 * ((amountPaisa + 99) / 100)
  else if amountPaisa ≤ 50000 then 500 * ((amountPaisa + 499) / 500)
  else 1000 * ((amountPaisa + 999) / 1000)

/-! ### Ledger helpers (server.py:649-718) -/

/-- `credit_wallet`: no-op for non-positive amounts or unknown users;
otherwise bump the balance and append one transaction record carrying
balance-before/after.  Returns the credited amount. -/
def credit_wallet (db : DB) (userId : Nat) (amount : Paisa) (txType : String)
    (orderId : Option Nat) (descr : String) (now : Time) : DB × Paisa :=
  if amount ≤ 0 then (db, 0)
  else
    match db.users.find? (fun u => u.uid == userId) with
    | none => (db, 0)
    | some u =>
      let newB := u.balance + amount
      let tx : WalletTx :=
        { user := userId, txType := txType, amount := amount,
          orderRef := orderId, balanceBefore := some u.balance,
          balanceAfter := some newB, description := descr, createdAt := now }
      ({ db with
          users := updateFirst (fun v => v.uid == userId)
            (fun v => { v with balance := newB }) db.users,
          txs := db.txs ++ [tx] },
       amount)

/-- `debit_wallet`: raises `HTTPException(400, "Insufficient wallet balance")`
when the amount exceeds the balance — before any mutation, so the returned
state is the input state on that path. -/
def debit_wallet (db : DB) (userId : Nat) (amount : Paisa) (txType : String)
    (orderId : Option Nat) (descr : String) (now : Time) :
    DB × Except String Paisa :=
  if amount ≤ 0 then (db, Except.ok 0)
  else
    match db.users.find? (fun u => u.uid == userId) with
    | none => (db, Except.ok 0)
    | some u =>
      if u.balance < amount then (db, Except.error "Insufficient wallet balance")
      else
        let newB := u.balance - amount
        let tx : WalletTx :=
          { user := userId, txType := txType, amount := -amount,
            orderRef := orderId, balanceBefore := some u.balance,
            balanceAfter := some newB, description := descr, createdAt := now }
        ({ db with
            users := updateFirst (fun v => v.uid == userId)
              (fun v => { v with balance := newB }) db.users,
            txs := db.txs ++ [tx] },
         Except.ok amount)

/-! ### Safety policy: `process_payment` (server.py:720-797) -/

/-- Module-level constant (server.py:395); the source declares it "overridden
by system_settings" but never actually reassigns it, so `process_payment`
always uses this value (`3.0` as a float there; multiplication by 3 of a
paisa integer is float-exact at all realistic magnitudes). -/
def MAX_OVERPAYMENT_RATIO : Int := 3

/-- Module-level constant (server.py:396), likewise never reassigned. -/
def MAX_AUTO_CREDIT_AMOUNT_PAISA : Paisa := 100000

/-- `process_payment order payment rrn raw fp now` applies the safety decision
table to the matched `order` and returns `(state, status, overpayment)`. -/
def process_payment (db : DB) (order : Order) (paymentAmount : Paisa)
    (rrn : Option String) (raw : Option String) (fp : Option String)
    (now : Time) : DB × String × Paisa :=
  let required := order.paymentRequired
  let over := max 0 (paymentAmount - required)
  let setOrd : (Order → Order) → DB → DB := fun f d =>
    { d with orders := updateFirst (fun o => o.oid == order.oid) f d.orders }
  if required * MAX_OVERPAYMENT_RATIO < paymentAmount then
    let f1 : Order → Order := fun o =>
      { o with status := "suspicious", paymentReceived := paymentAmount,
               paymentRrn := rrn, rawMessage := raw, smsFingerprint := fp,
               suspiciousReason := some "overpayment_ratio_exceeded",
               updatedAt := now }
    (setOrd f1 db, ("suspicious", 0))
  else if MAX_AUTO_CREDIT_AMOUNT_PAISA < over then
    let f2 : Order → Order := fun o =>
      { o with status := "suspicious", paymentReceived := paymentAmount,
               paymentRrn := rrn, rawMessage := raw, smsFingerprint := fp,
               overpayment := over,
               suspiciousReason := some "overpayment_exceeds_auto_credit_limit",
               updatedAt := now }
    (setOrd f2 db, ("suspicious", 0))
  else
    let f3 : Order → Order := fun o =>
      { o with status := "paid", paymentReceived := paymentAmount,
               paymentRrn := rrn, rawMessage := raw, smsFingerprint := fp,
               overpayment := over, updatedAt := now }
    let db1 := setOrd f3 db
    let db2 := if 0 < over then
        (credit_wallet db1 order.userId over "overpayment_credit"
          (some order.oid) "overpayment_credit" now).1
      else db1
    let db3 := if order.orderType = "wallet_load" && decide (0 < order.loadAmount) then
        (credit_wallet db2 order.userId order.loadAmount "wallet_load"
          (some order.oid) "wallet_load" now).1
      else db2
    (db3, ("paid", over))

/-! ### Fulfillment queue: `add_to_queue` (server.py:799-843) -/

def add_to_queue (db : DB) (orderId : Nat) (now : Time) : DB :=
  let setOrd : (Order → Order) → DB := fun f =>
    { db with orders := updateFirst (fun x => x.oid == orderId) f db.orders }
  match db.orders.find? (fun o => o.oid == orderId) with
  | none => db
  | some o =>
    if o.orderType ≠ "product_topup" then
      setOrd (fun x =>
        { x with status := "success", completedAt := some now, updatedAt := now })
    else if ¬ db.settings.autoTopup then
      setOrd (fun x =>
        { x with status := "manual_pending",
                 manualPendingReason := some "auto_topup_disabled", updatedAt := now })
    else
      setOrd (fun x =>
        { x with status := "queued", queuedAt := some now, updatedAt := now })

/-! ### Order matcher: `try_match_sms_to_orders` (server.py:977-1114) -/

/-- The Mongo candidate query filter: `pending_payment`, same last-3 digits,
required amount ≤ the payment amount. -/
def matchFilter (amount : Paisa) (last3 : String) (o : Order) : Bool :=
  o.status == "pending_payment" && o.paymentLast3 == some last3
    && decide (o.paymentRequired ≤ amount)

/-- Stable insertion into a creation-time-ascending list. -/
def insertByCreated (o : Order) : List Order → List Order
  | [] => [o]
  | x :: xs =>
    if o.createdAt < x.createdAt then o :: x :: xs else x :: insertByCreated o xs

/-- `.sort("created_at", 1)`: stable sort ascending by creation time. -/
def sortByCreated : List Order → List Order
  | [] => []
  | x :: xs => insertByCreated x (sortByCreated xs)

/-- The candidate list the matcher actually iterates over: the filtered
orders, creation-time ascending, `.to_list(20)` — at most the 20 oldest. -/
def matchCandidates (db : DB) (amount : Paisa) (last3 : String) : List Order :=
  (sortByCreated (db.orders.filter (matchFilter amount last3))).take 20

/-- One step of the best-candidate loop: keep the current best unless the new
order has strictly smaller overpayment (`overpayment < best_overpayment`). -/
def selectStep (amount : Paisa) (acc : Option Order) (o : Order) : Option Order :=
  match acc with
  | none => some o
  | some b =>
    if amount - o.paymentRequired < amount - b.paymentRequired then some o else some b

/-- The smallest-overpayment selection loop (server.py:1066-1074); the strict
comparison keeps the first — i.e. oldest — order on ties. -/
def selectBest (amount : Paisa) (l : List Order) : Option Order :=
  l.foldl (selectStep amount) none

/-- Update the first SMS doc with the given id. -/
def updateSms (db : DB) (sid : Nat) (f : SmsDoc → SmsDoc) : DB :=
  { db with sms := updateFirst (fun m => m.sid == sid) f db.sms }

def pushAlert (db : DB) (a : Alert) : DB :=
  { db with alerts := db.alerts ++ [a] }

/-- `try_match_sms_to_orders`: dedup against orders (RRN then fingerprint),
settings gate, payment-age gate, candidate selection, then the two
settings-based safety checks on the selected candidate.  Returns the matched
order, if any, plus the state (it flags the SMS doc and raises alerts but
never touches orders or the ledger itself). -/
def try_match_sms_to_orders (db : DB) (smsDoc : SmsDoc) (now : Time) :
    DB × Option Order :=
  let s := db.settings
  -- `if not amount_paisa or not last3digits: return None` (Python falsy test)
  match smsDoc.amount, smsDoc.last3 with
  | some amount, some last3 =>
    if amount == 0 || last3 == "" then (db, none)
    else
    -- duplicate RRN already attached to an order
    let rrnDup := match smsDoc.rrn with
      | some r => !(r == "") && db.orders.any (fun o => o.paymentRrn == some r)
      | none => false
    if rrnDup then
      (pushAlert (updateSms db smsDoc.sid (fun m =>
          { m with status := some "duplicate_payment", used := true }))
        { alertType := "duplicate_payment", severity := "warning",
          message := "duplicate_rrn" }, none)
    else
    -- duplicate fingerprint already attached to an order
    let fpDup := !(smsDoc.fingerprint == "")
      && db.orders.any (fun o => o.smsFingerprint == some smsDoc.fingerprint)
    if fpDup then
      (updateSms db smsDoc.sid (fun m =>
        { m with status := some "duplicate_payment", used := true }), none)
    else if ¬ s.autoPaymentCheck then
      (updateSms db smsDoc.sid (fun m =>
        { m with status := some "manual_review",
                 manualReviewReason := some "auto_payment_check_disabled" }), none)
    else
    -- payment-age window (received_at falling back to parsed_at)
    let smsTime := smsDoc.receivedAt.getD smsDoc.parsedAt
    if (s.paymentMatchWindowMinutes : Int) < now - smsTime then
      (updateSms db smsDoc.sid (fun m =>
        { m with status := some "manual_review",
                 manualReviewReason := some "payment_age_exceeded" }), none)
    else
      match selectBest amount (matchCandidates db amount last3) with
      | none => (db, none)
      | some best =>
        let required := best.paymentRequired
        if required * (s.maxOverpaymentRatio : Int) < amount then
          (pushAlert (updateSms db smsDoc.sid (fun m =>
              { m with suspicious := true, status := some "suspicious",
                       suspiciousReason := some "overpayment_ratio_exceeded" }))
            { alertType := "suspicious_payment", severity := "critical",
              message := "overpayment_ratio_exceeded" }, none)
        else if s.maxWalletCredit < amount - required then
          (pushAlert (updateSms db smsDoc.sid (fun m =>
              { m with suspicious := true, status := some "suspicious",
                       suspiciousReason := some "leftover_exceeds_max_wallet_credit" }))
            { alertType := "suspicious_payment", severity := "critical",
              message := "leftover_exceeds_max_wallet_credit" }, none)
        else (db, some best)
  | _, _ => (db, none)

/-! ### Ingestion endpoints -/

/-- Python's falsy `a or b` on optional integers (`0` counts as absent). -/
def pyOrInt (a b : Option Paisa) : Option Paisa :=
  match a with
  | some v => if v == 0 then b else some v
  | none => b

/-- Python's falsy `a or b` on optional strings (`""` counts as absent). -/
def pyOrStr (a b : Option String) : Option String :=
  match a with
  | some v => if v == "" then b else some v
  | none => b

/-- Response of `POST /api/sms/receive`. -/
structure RcvResp where
  duplicate : Bool
  matched : Option Bool
  orderId : Option Nat
deriving Repr, DecidableEq

/-- `receive_sms` (server.py:1630-1689): parse, fingerprint dedup against
stored notifications, store, auto-match, then (on a match) a re-check of the
RRN against orders, `process_payment`, marking the SMS used, and enqueueing.
An unhandled `ValueError` from parsing surfaces as `.error` (HTTP 500) with
the state unmutated. -/
def receive_sms (db : DB) (raw : String) (now : Time) :
    DB × Except String RcvResp :=
  match parse_sms_message raw with
  | Except.error e => (db, Except.error e)
  | Except.ok parsed =>
    let fp := pyStrip raw
    if db.sms.any (fun m => m.fingerprint == fp) then
      (db, Except.ok { duplicate := true, matched := none, orderId := none })
    else
      let doc : SmsDoc :=
        { sid := db.nextId, rawMessage := raw, fingerprint := fp,
          amount := parsed.amount, last3 := parsed.last3, rrn := parsed.rrn,
          method := parsed.method, remark := parsed.remark, receivedAt := none,
          parsedAt := now, used := false, matchedOrderId := none,
          matchedAt := none, suspicious := false, suspiciousReason := none,
          manualReviewReason := none, status := none }
      let db1 := { db with sms := db.sms ++ [doc], nextId := db.nextId + 1 }
      match try_match_sms_to_orders db1 doc now with
      | (db2, none) =>
        (db2, Except.ok { duplicate := false, matched := some false, orderId := none })
      | (db2, some best) =>
        let rrnUsed := match parsed.rrn with
          | some r => !(r == "") && db2.orders.any (fun o => o.paymentRrn == some r)
          | none => false
        if rrnUsed then
          (db2, Except.ok { duplicate := false, matched := some false, orderId := none })
        else
          let paid := process_payment db2 best (parsed.amount.getD 0)
            parsed.rrn (some raw) (some fp) now
          let db3 := updateSms paid.1 doc.sid (fun m =>
            { m with used := true, matchedOrderId := some best.oid,
                     matchedAt := some now })
          let db4 := if paid.2.1 == "paid" then add_to_queue db3 best.oid now else db3
          (db4, Except.ok { duplicate := false, matched := some true,
                            orderId := some best.oid })

/-- Request body of `POST /api/sms/ingest` (the Android forwarder): raw text,
an externally computed fingerprint, and optional pre-parsed fields. -/
structure IngestReq where
  rawMessage : String
  receivedAt : Time
  amount : Option Paisa
  last3 : Option String
  rrn : Option String
  remark : Option String
  method : Option String
  fingerprint : String
deriving Repr, DecidableEq

/-- Response of `POST /api/sms/ingest`; `statusCode` 409 for duplicates. -/
structure IngestResp where
  statusCode : Nat
  ok : Bool
  status : String
  matched : Option Bool
  matchedOrderId : Option Nat
deriving Repr, DecidableEq

/-- `sms_ingest` (server.py:2410-2478): fingerprint dedup, RRN dedup against
stored notifications, server-side parse only when amount or last3 was not
supplied (`is None`), store, auto-match — and then report the match result
directly: as the source reads, no `process_payment`, no marking of the SMS
doc, no enqueue happens on this path. -/
def sms_ingest (db : DB) (req : IngestReq) (now : Time) :
    DB × Except String IngestResp :=
  if db.sms.any (fun m => m.fingerprint == req.fingerprint) then
    (db, Except.ok { statusCode := 409, ok := false, status := "duplicate",
                     matched := none, matchedOrderId := none })
  else
    let rrnDup := match req.rrn with
      | some r => !(r == "") && db.sms.any (fun m => m.rrn == some r)
      | none => false
    if rrnDup then
      (db, Except.ok { statusCode := 409, ok := false, status := "duplicate",
                       matched := none, matchedOrderId := none })
    else
      let parsedE := if req.amount.isNone || req.last3.isNone
        then parse_sms_message req.rawMessage
        else Except.ok { amount := none, last3 := none, rrn := none,
                         method := none, remark := none }
      match parsedE with
      | Except.error e => (db, Except.error e)
      | Except.ok parsed =>
        let doc : SmsDoc :=
          { sid := db.nextId, rawMessage := req.rawMessage,
            fingerprint := req.fingerprint,
            amount := pyOrInt req.amount parsed.amount,
            last3 := pyOrStr req.last3 parsed.last3,
            rrn := pyOrStr req.rrn parsed.rrn,
            method := pyOrStr req.method parsed.method,
            remark := pyOrStr req.remark parsed.remark,
            receivedAt := some req.receivedAt, parsedAt := now, used := false,
            matchedOrderId := none, matchedAt := none, suspicious := false,
            suspiciousReason := none, manualReviewReason := none, status := none }
        let db1 := { db with sms := db.sms ++ [doc], nextId := db.nextId + 1 }
        match try_match_sms_to_orders db1 doc now with
        | (db2, some best) =>
          (db2, Except.ok { statusCode := 200, ok := true, status := "accepted",
                            matched := some true, matchedOrderId := some best.oid })
        | (db2, none) =>
          (db2, Except.ok { statusCode := 200, ok := true, status := "accepted",
                            matched := some false, matchedOrderId := none })

/-- `admin_input_sms` (server.py:2493-2519): parse, fingerprint dedup, store;
no auto-matching. -/
def admin_input_sms (db : DB) (raw : String) (now : Time) :
    DB × Except String Bool :=
  match parse_sms_message raw with
  | Except.error e => (db, Except.error e)
  | Except.ok parsed =>
    let fp := pyStrip raw
    if db.sms.any (fun m => m.fingerprint == fp) then (db, Except.ok false)
    else
      let doc : SmsDoc :=
        { sid := db.nextId, rawMessage := raw, fingerprint := fp,
          amount := parsed.amount, last3 := parsed.last3, rrn := parsed.rrn,
          method := parsed.method, remark := parsed.remark, receivedAt := none,
          parsedAt := now, used := false, matchedOrderId := none,
          matchedAt := none, suspicious := false, suspiciousReason := none,
          manualReviewReason := none, status := none }
      ({ db with sms := db.sms ++ [doc], nextId := db.nextId + 1 }, Except.ok true)

/-! ### Scheduled maintenance jobs (server.py:158-281) -/

/-- The refund transaction the expire job writes: note it carries no
balance-before/after fields (server.py:208-216 sets neither). -/
def refundTx (o : Order) (now : Time) : WalletTx :=
  { user := o.userId, txType := "refund", amount := o.walletUsed,
    orderRef := some o.oid, balanceBefore := none, balanceAfter := none,
    description := "refund_for_expired_order", createdAt := now }

/-- One iteration of the expire job's refund loop: `$inc` the user balance and
insert the (field-poor) refund transaction. -/
def applyRefund (db : DB) (o : Order) (now : Time) : DB :=
  if 0 < o.walletUsed then
    { db with
        users := updateFirst (fun u => u.uid == o.userId)
          (fun u => { u with balance := u.balance + o.walletUsed }) db.users,
        txs := db.txs ++ [refundTx o now] }
  else db

/-- The expire job's refund-target query (server.py:189-196): orders now
`expired`, expired within the last 5 minutes, with a positive wallet portion;
`.to_list(100)`. -/
def refundTargets (db : DB) (now : Time) : List Order :=
  (db.orders.filter (fun o => o.status == "expired"
    && (match o.expiredAt with
        | some t => decide (now - 5 < t)
        | none => false)
    && decide (0 < o.walletUsed))).take 100

/-- The expire query filter: stale `pending_payment` orders. -/
def staleOrder (db : DB) (now : Time) (o : Order) : Bool :=
  o.status == "pending_payment"
    && decide (o.createdAt < now - (db.settings.orderExpiryMinutes : Int))

/-- Stage 1 of the expire job: the `update_many` marking stale orders
`expired`. -/
def expireStage1 (db : DB) (now : Time) : DB :=
  { db with orders := db.orders.map (fun o =>
    if staleOrder db now o then
      { o with status := "expired", expiredAt := some now, updatedAt := now }
    else o) }

/-- `expire_old_orders` (server.py:158-221): `update_many` all stale
`pending_payment` orders to `expired`, then — only when that pass modified
something — refund the wallet portion of every order expired in the last
5 minutes. -/
def expire_old_orders (db : DB) (now : Time) : DB :=
  let modified := (db.orders.filter (staleOrder db now)).length
  let db1 := expireStage1 db now
  if modified == 0 then db1
  else (refundTargets db1 now).foldl (fun d o => applyRefund d o now) db1

/-- `flag_suspicious_sms` (server.py:223-251): notifications unused, not yet
suspicious, parsed more than an hour ago are flagged. -/
def flag_suspicious_sms (db : DB) (now : Time) : DB :=
  { db with sms := db.sms.map (fun m =>
    if !m.used && !m.suspicious && decide (m.parsedAt < now - 60) then
      { m with suspicious := true,
               suspiciousReason := some "Unmatched for over 1 hour" }
    else m) }

/-- `cleanup_processing_orders` (server.py:253-281): orders stuck in
`processing` for more than 10 minutes go back to `queued` with the retry
counter incremented. -/
def cleanup_processing_orders (db : DB) (now : Time) : DB :=
  { db with orders := db.orders.map (fun o =>
    if o.status == "processing"
        && (match o.processingStartedAt with
            | some t => decide (t < now - 10)
            | none => false) then
      { o with status := "queued", automationState := some "reset_from_stuck",
               retryCount := o.retryCount + 1, updatedAt := now }
    else o) }

/-! ### Circuit breaker (server.py:111-146) -/

/-- `record_automation_failure`: append the failure time and prune everything
older than a hard-coded 30 minutes — regardless of the configured window. -/
def record_automation_failure (failures : List Time) (now : Time) : List Time :=
  (failures ++ [now]).filter (fun t => decide (now - 30 < t))

/-- `check_circuit_breaker`: count failures inside the configured window; at
or above the threshold, flip `auto_topup` off and raise one critical alert —
but only if `auto_topup` is currently on.  Returns whether automation should
be disabled. -/
def check_circuit_breaker (db : DB) (now : Time) : DB × Bool :=
  let s := db.settings
  let windowStart := now - (s.automationFailWindowMinutes : Int)
  let recent := db.failures.filter (fun t => decide (windowStart < t))
  if s.automationFailThreshold ≤ recent.length then
    if s.autoTopup then
      (pushAlert { db with settings := { s with autoTopup := false } }
        { alertType := "circuit_breaker", severity := "critical",
          message := "auto_topup_disabled_by_circuit_breaker" }, true)
    else (db, true)
  else (db, false)

/-! ### Fulfillment worker: `process_automation_order` (server.py:845-975)

The external browser-automation run (`run_automation_for_order`, an opaque
collaborator per the spec) is an input: `hasGarena` says whether an active
Garena account is configured, `verdict` is its `(success, status_msg)`
result; `status_msg = "invalid_uid"` is the definitive no-retry signal
(garena_automation.py:358). -/
def process_automation_order (db : DB) (orderId : Nat) (hasGarena : Bool)
    (verdict : Bool × String) (now : Time) : DB :=
  let setOrd : DB → (Order → Order) → DB := fun d f =>
    { d with orders := updateFirst (fun x => x.oid == orderId) f d.orders }
  match db.orders.find? (fun o => o.oid == orderId) with
  | none => db
  | some o =>
    if o.status ≠ "queued" then db
    else
      let db1 := setOrd db (fun x =>
        { x with status := "processing", automationState := some "started",
                 processingStartedAt := some now, updatedAt := now })
      if ¬ hasGarena then
        setOrd db1 (fun x =>
          { x with status := "manual_review",
                   automationState := some "no_garena_account",
                   suspiciousReason := some "No active Garena account configured",
                   updatedAt := now })
      else
        match verdict with
        | (true, _) =>
          setOrd db1 (fun x =>
            { x with status := "success", automationState := some "completed",
                     completedAt := some now, updatedAt := now })
        | (false, msg) =>
          let rc := o.retryCount + 1
          let db2 :=
            if msg = "invalid_uid" then
              setOrd db1 (fun x =>
                { x with status := "invalid_uid", automationState := some msg,
                         suspiciousReason := some "Player UID not found in Free Fire",
                         retryCount := rc, updatedAt := now })
            else if rc < 3 then
              setOrd db1 (fun x =>
                { x with status := "queued",
                         automationState := some ("retry_" ++ toString rc),
                         retryCount := rc, updatedAt := now })
            else
              setOrd db1 (fun x =>
                { x with status := "manual_review", automationState := some msg,
                         suspiciousReason := some ("Automation failed: " ++ msg),
                         retryCount := rc, updatedAt := now })
          let db3 := { db2 with failures := record_automation_failure db2.failures now }
          (check_circuit_breaker db3 now).1

/-! ### Account and order creation -/

/-- `signup` (server.py:1118-1160): reject duplicate usernames, otherwise a
new user with a zero wallet. -/
def signup (db : DB) (username : String) : DB × Option Nat :=
  if username.length < 3 || db.users.any (fun u => u.username == username) then
    (db, none)
  else
    let u : User := { uid := db.nextId, username := username, balance := 0,
                      blocked := false }
    ({ db with users := db.users ++ [u], nextId := db.nextId + 1 }, some u.uid)

/-- `create_product_order` (server.py:1311-1409): lock the package price,
apply the wallet balance first (fully covering → immediately `paid`), round
the remaining payment up to a clean denomination, insert the order, debit the
wallet portion, and enqueue if fully paid. -/
def create_product_order (db : DB) (userId : Nat) (playerUid : String)
    (price : Paisa) (now : Time) : DB × Option Nat :=
  if playerUid.length < 8 || !playerUid.data.all Char.isDigit then (db, none)
  else
    match db.users.find? (fun u => u.uid == userId) with
    | none => (db, none)
    | some u =>
      if u.blocked then (db, none)
      else
        let wb := u.balance
        let walletUsed : Paisa := if 0 < wb then if price ≤ wb then price else wb else 0
        let required : Paisa := if 0 < wb then if price ≤ wb then 0 else price - wb else price
        let st : String := if 0 < wb && price ≤ wb then "paid" else "pending_payment"
        let payAmt := if 0 < required then round_up_payment_paisa required else 0
        let oid := db.nextId
        let o : Order :=
          { oid := oid, orderType := "product_topup", userId := userId,
            playerUid := some playerUid, lockedPrice := price, loadAmount := 0,
            walletUsed := walletUsed, paymentRequired := required,
            paymentAmount := payAmt, paymentLast3 := none, paymentRrn := none,
            paymentReceived := 0, rawMessage := none, smsFingerprint := none,
            overpayment := 0, status := st, automationState := none,
            suspiciousReason := none, manualPendingReason := none,
            retryCount := 0, createdAt := now, updatedAt := now,
            queuedAt := none, processingStartedAt := none, completedAt := none,
            expiredAt := none }
        let db1 := { db with orders := db.orders ++ [o], nextId := db.nextId + 1 }
        let db2 := if 0 < walletUsed then
            (debit_wallet db1 userId walletUsed "order_payment" (some oid)
              "order_payment" now).1
          else db1
        let db3 := if st = "paid" then add_to_queue db2 oid now else db2
        (db3, some oid)

/-- `create_wallet_load_order` (server.py:1411-1471); `loadRupees` is the
requested whole-rupee amount (`amount_rupees`, minimum 10). -/
def create_wallet_load_order (db : DB) (userId : Nat) (loadRupees : Int)
    (now : Time) : DB × Option Nat :=
  if loadRupees < 10 then (db, none)
  else
    match db.users.find? (fun u => u.uid == userId) with
    | none => (db, none)
    | some u =>
      if u.blocked then (db, none)
      else
        let load := loadRupees * 100
        let oid := db.nextId
        let o : Order :=
          { oid := oid, orderType := "wallet_load", userId := userId,
            playerUid := none, lockedPrice := load, loadAmount := load,
            walletUsed := 0, paymentRequired := load,
            paymentAmount := round_up_payment_paisa load, paymentLast3 := none,
            paymentRrn := none, paymentReceived := 0, rawMessage := none,
            smsFingerprint := none, overpayment := 0,
            status := "pending_payment", automationState := none,
            suspiciousReason := none, manualPendingReason := none,
            retryCount := 0, createdAt := now, updatedAt := now,
            queuedAt := none, processingStartedAt := none, completedAt := none,
            expiredAt := none }
        ({ db with orders := db.orders ++ [o], nextId := db.nextId + 1 }, some oid)

/-! ### Admin wallet operations (server.py:2790-3024) -/

/-- `ADMIN_REDEEM_SINGLE_LIMIT_PAISA` (server.py:645). -/
def ADMIN_REDEEM_SINGLE_LIMIT_PAISA : Paisa := 500000

/-- The synthetic `wallet_load` order both admin wallet operations insert;
`rrnTag`/`fpTag` model the `ADMIN_*_{id}` strings (unique because the id
is — the source uses a uuid prefix). -/
def adminWalletOrder (oid userId : Nat) (amount load : Paisa) (reason tag : String)
    (now : Time) : Order :=
  { oid := oid, orderType := "wallet_load", userId := userId, playerUid := none,
    lockedPrice := amount, loadAmount := load, walletUsed := 0,
    paymentRequired := 0, paymentAmount := 0, paymentLast3 := none,
    paymentRrn := some (tag ++ toString oid),
    paymentReceived := if tag = "ADMIN_RECHARGE_" then amount else 0,
    rawMessage := none, smsFingerprint := some (tag ++ "FP" ++ toString oid),
    overpayment := 0, status := "success", automationState := none,
    suspiciousReason := some reason, manualPendingReason := none,
    retryCount := 0, createdAt := now, updatedAt := now, queuedAt := none,
    processingStartedAt := none, completedAt := some now, expiredAt := none }

/-- `admin_wallet_recharge` (server.py:2790-2897): validate, bump the balance,
write one paired transaction (type `credit`) and a synthetic successful
`wallet_load` order. -/
def admin_wallet_recharge (db : DB) (userId : Nat) (amount : Paisa)
    (reason : String) (now : Time) : DB × Bool :=
  if amount ≤ 0 then (db, false)
  else
    match db.users.find? (fun u => u.uid == userId) with
    | none => (db, false)
    | some u =>
      if (pyStrip reason).length < 5 then (db, false)
      else
        let newB := u.balance + amount
        let oid := db.nextId
        let tx : WalletTx :=
          { user := userId, txType := "credit", amount := amount,
            orderRef := some oid, balanceBefore := some u.balance,
            balanceAfter := some newB, description := reason, createdAt := now }
        ({ db with
            nextId := db.nextId + 1,
            users := updateFirst (fun v => v.uid == userId)
              (fun v => { v with balance := newB }) db.users,
            txs := db.txs ++ [tx],
            orders := db.orders ++
              [adminWalletOrder oid userId amount amount reason "ADMIN_RECHARGE_" now] },
         true)

/-- `admin_wallet_redeem` (server.py:2899-3024): validate (single-action
limit, sufficient balance), debit the balance, write one paired transaction
(type `debit`, negative amount) and a synthetic order. -/
def admin_wallet_redeem (db : DB) (userId : Nat) (amount : Paisa)
    (reason : String) (now : Time) : DB × Bool :=
  if amount ≤ 0 then (db, false)
  else
    match db.users.find? (fun u => u.uid == userId) with
    | none => (db, false)
    | some u =>
      if (pyStrip reason).length < 5 then (db, false)
      else if ADMIN_REDEEM_SINGLE_LIMIT_PAISA < amount then (db, false)
      else if u.balance < amount then (db, false)
      else
        let newB := u.balance - amount
        let oid := db.nextId
        let tx : WalletTx :=
          { user := userId, txType := "debit", amount := -amount,
            orderRef := some oid, balanceBefore := some u.balance,
            balanceAfter := some newB, description := reason, createdAt := now }
        ({ db with
            nextId := db.nextId + 1,
            users := updateFirst (fun v => v.uid == userId)
              (fun v => { v with balance := newB }) db.users,
            txs := db.txs ++ [tx],
            orders := db.orders ++
              [adminWalletOrder oid userId amount (-amount) reason "ADMIN_REDEEM_" now] },
         true)

/-- `link_payment_to_order` (server.py:2048-2097): staff manually applies a
stored, unused payment to an arbitrary order via `process_payment`, then
marks the payment used; enqueues on `paid`.  (Notably, no RRN/fingerprint
dedup check on this path.) -/
def link_payment_to_order (db : DB) (paymentId orderId : Nat) (now : Time) :
    DB × Option String :=
  match db.sms.find? (fun m => m.sid == paymentId) with
  | none => (db, none)
  | some payment =>
    if payment.used then (db, none)
    else
      match db.orders.find? (fun o => o.oid == orderId) with
      | none => (db, none)
      | some order =>
        let paid := process_payment db order (payment.amount.getD 0) payment.rrn
          (some payment.rawMessage) (some payment.fingerprint) now
        let db1 := updateSms paid.1 paymentId (fun m =>
          { m with used := true, matchedOrderId := some orderId,
                   matchedAt := some now })
        let db2 := if paid.2.1 == "paid" then add_to_queue db1 orderId now else db1
        (db2, some paid.2.1)

/-- A partial settings update (server.py:1781-1849); each supplied field is
validated independently (`ratio ≥ 1`, `credit ≥ 0`, minute windows ≥ 1). -/
structure SettingsUpdate where
  autoPaymentCheck : Option Bool
  autoTopup : Option Bool
  maxOverpaymentRatio : Option Nat
  maxWalletCredit : Option Paisa
  automationFailThreshold : Option Nat
  automationFailWindowMinutes : Option Nat
  orderExpiryMinutes : Option Nat
  paymentMatchWindowMinutes : Option Nat
deriving Repr, DecidableEq

/-- `update_settings`: apply a validated partial update; invalid values are
rejected with HTTP 400 before any write (`false`). -/
def update_settings (db : DB) (u : SettingsUpdate) : DB × Bool :=
  if u.maxOverpaymentRatio.any (fun r => r < 1) then (db, false)
  else if u.maxWalletCredit.any (fun c => c < 0) then (db, false)
  else if u.automationFailThreshold.any (fun t => t < 1) then (db, false)
  else if u.automationFailWindowMinutes.any (fun w => w < 1) then (db, false)
  else if u.orderExpiryMinutes.any (fun e => e < 1) then (db, false)
  else if u.paymentMatchWindowMinutes.any (fun w => w < 1) then (db, false)
  else
    let s := db.settings
    ({ db with settings :=
        { autoPaymentCheck := u.autoPaymentCheck.getD s.autoPaymentCheck,
          autoTopup := u.autoTopup.getD s.autoTopup,
          maxOverpaymentRatio := u.maxOverpaymentRatio.getD s.maxOverpaymentRatio,
          maxWalletCredit := u.maxWalletCredit.getD s.maxWalletCredit,
          automationFailThreshold :=
            u.automationFailThreshold.getD s.automationFailThreshold,
          automationFailWindowMinutes :=
            u.automationFailWindowMinutes.getD s.automationFailWindowMinutes,
          orderExpiryMinutes := u.orderExpiryMinutes.getD s.orderExpiryMinutes,
          paymentMatchWindowMinutes :=
            u.paymentMatchWindowMinutes.getD s.paymentMatchWindowMinutes } },
     true)

/-! ### The reachable-state relation

`Step db db'` holds when one operation of the reconciliation core (with
arbitrary arguments, at an arbitrary time) takes the state `db` to `db'`;
`Reachable` is its reflexive-transitive closure from the empty deployment.
The browser-automation verdict and all request payloads are free parameters:
every interleaving of requests and scheduled jobs is covered. -/

inductive Step : DB → DB → Prop where
  | signup (db : DB) (username : String) :
      Step db (NexStore.signup db username).1
  | productOrder (db : DB) (userId : Nat) (playerUid : String) (price : Paisa)
      (now : Time) :
      Step db (create_product_order db userId playerUid price now).1
  | walletLoadOrder (db : DB) (userId : Nat) (loadRupees : Int) (now : Time) :
      Step db (create_wallet_load_order db userId loadRupees now).1
  | recvSms (db : DB) (raw : String) (now : Time) :
      Step db (receive_sms db raw now).1
  | ingestSms (db : DB) (req : IngestReq) (now : Time) :
      Step db (sms_ingest db req now).1
  | adminSms (db : DB) (raw : String) (now : Time) :
      Step db (admin_input_sms db raw now).1
  | credit (db : DB) (userId : Nat) (amount : Paisa) (ty : String)
      (oid : Option Nat) (descr : String) (now : Time) :
      Step db (credit_wallet db userId amount ty oid descr now).1
  | debit (db : DB) (userId : Nat) (amount : Paisa) (ty : String)
      (oid : Option Nat) (descr : String) (now : Time) :
      Step db (debit_wallet db userId amount ty oid descr now).1
  | procPayment (db : DB) (order : Order) (payment : Paisa)
      (rrn : Option String) (raw fp : Option String) (now : Time) :
      Step db (process_payment db order payment rrn raw fp now).1
  | linkPayment (db : DB) (paymentId orderId : Nat) (now : Time) :
      Step db (link_payment_to_order db paymentId orderId now).1
  | addQueue (db : DB) (orderId : Nat) (now : Time) :
      Step db (add_to_queue db orderId now)
  | expire (db : DB) (now : Time) :
      Step db (expire_old_orders db now)
  | flagSms (db : DB) (now : Time) :
      Step db (flag_suspicious_sms db now)
  | cleanup (db : DB) (now : Time) :
      Step db (cleanup_processing_orders db now)
  | automation (db : DB) (orderId : Nat) (hasGarena : Bool)
      (verdict : Bool × String) (now : Time) :
      Step db (process_automation_order db orderId hasGarena verdict now)
  | recordFail (db : DB) (now : Time) :
      Step db { db with failures := record_automation_failure db.failures now }
  | checkBreaker (db : DB) (now : Time) :
      Step db (check_circuit_breaker db now).1
  | adminRecharge (db : DB) (userId : Nat) (amount : Paisa) (reason : String)
      (now : Time) :
      Step db (admin_wallet_recharge db userId amount reason now).1
  | adminRedeem (db : DB) (userId : Nat) (amount : Paisa) (reason : String)
      (now : Time) :
      Step db (admin_wallet_redeem db userId amount reason now).1
  | settingsUpd (db : DB) (u : SettingsUpdate) :
      Step db (update_settings db u).1

def Reachable (db : DB) : Prop := Relation.ReflTransGen Step dbInit db

/-! ### The state invariant -/

/-- Sum of the amounts of one user's transactions. -/
def txSum (uid : Nat) : List WalletTx → Paisa
  | [] => 0
  | t :: ts => (if t.user = uid then t.amount else 0) + txSum uid ts

/-- What every reachable state satisfies: ids are below the fresh-id counter
and pairwise distinct, every balance is the sum of that user's transaction
amounts, and notification fingerprints are pairwise distinct. -/
structure Inv (db : DB) : Prop where
  uidsBound : ∀ i ∈ db.users.map User.uid, i < db.nextId
  uidsDistinct : (db.users.map User.uid).Pairwise (· ≠ ·)
  orderUserBound : ∀ i ∈ db.orders.map Order.userId, i < db.nextId
  txUserBound : ∀ i ∈ db.txs.map WalletTx.user, i < db.nextId
  balanced : ∀ u ∈ db.users, u.balance = txSum u.uid db.txs
  fpDistinct : (db.sms.map SmsDoc.fingerprint).Pairwise (· ≠ ·)

/-! ### Helper lemmas -/

theorem txSum_append (uid : Nat) (l₁ l₂ : List WalletTx) :
    txSum uid (l₁ ++ l₂) = txSum uid l₁ + txSum uid l₂ := by
  induction l₁ with
  | nil => simp [txSum]
  | cons t ts ih => simp [txSum, ih]; ring

theorem txSum_eq_zero (uid : Nat) (l : List WalletTx)
    (h : ∀ t ∈ l, t.user ≠ uid) : txSum uid l = 0 := by
  induction l with
  | nil => rfl
  | cons t ts ih =>
    have ht : t.user ≠ uid := h t (by simp)
    simp only [txSum, if_neg ht, zero_add]
    exact ih fun x hx => h x (by simp [hx])

theorem map_updateFirst {α β : Type} (g : α → β) (p : α → Bool) (f : α → α)
    (hf : ∀ a, g (f a) = g a) : ∀ l : List α, (updateFirst p f l).map g = l.map g := by
  intro l
  induction l with
  | nil => rfl
  | cons x xs ih =>
    by_cases hx : p x
    · simp [updateFirst, hx, hf]
    · simp [updateFirst, hx, ih]

theorem mem_map_of_mem_updateFirst {α β : Type} (g : α → β) (p : α → Bool)
    (f : α → α) (hf : ∀ a, g (f a) = g a) {l : List α} {x : α}
    (hx : x ∈ updateFirst p f l) : g x ∈ l.map g := by
  have : g x ∈ (updateFirst p f l).map g := List.mem_map_of_mem g hx
  rwa [map_updateFirst g p f hf l] at this

theorem any_eq_false_iff {α : Type} (p : α → Bool) (l : List α) :
    l.any p = false ↔ ∀ x ∈ l, ¬ p x := by
  induction l with
  | nil => simp
  | cons x xs ih => simp [List.any_cons, ih]

theorem pairwise_map_append_one {α β : Type} (g : α → β) (l : List α) (a : α)
    (hp : (l.map g).Pairwise (· ≠ ·)) (hnew : ∀ x ∈ l, g x ≠ g a) :
    ((l ++ [a]).map g).Pairwise (· ≠ ·) := by
  rw [List.map_append, List.pairwise_append]
  refine ⟨hp, by simp, ?_⟩
  intro y hy z hz
  simp only [List.map_cons, List.map_nil, List.mem_singleton] at hz
  subst hz
  rcases List.mem_map.mp hy with ⟨x, hx, rfl⟩
  exact hnew x hx

theorem eq_of_pairwise_map {α β : Type} (g : α → β) {l : List α}
    (hp : (l.map g).Pairwise (· ≠ ·)) :
    ∀ {x y : α}, x ∈ l → y ∈ l → g x = g y → x = y := by
  induction l with
  | nil => intro x y hx; simp at hx
  | cons z zs ih =>
    intro x y hx hy hg
    simp only [List.map_cons, List.pairwise_cons] at hp
    obtain ⟨hhead, hzs⟩ := hp
    rcases List.mem_cons.mp hx with rfl | hx' <;>
      rcases List.mem_cons.mp hy with rfl | hy'
    · rfl
    · exact absurd hg (hhead (g y) (List.mem_map_of_mem _ hy'))
    · exact absurd hg.symm (hhead (g x) (List.mem_map_of_mem _ hx'))
    · exact ih hzs hx' hy' hg

/-- Updates that leave users, transactions, order ownership, notification
fingerprints untouched (and do not lower the id counter) preserve `Inv`. -/
theorem inv_frame {db db' : DB} (h : Inv db)
    (hu : db'.users = db.users) (ht : db'.txs = db.txs)
    (ho : db'.orders.map Order.userId = db.orders.map Order.userId)
    (hs : db'.sms.map SmsDoc.fingerprint = db.sms.map SmsDoc.fingerprint)
    (hn : db.nextId ≤ db'.nextId) : Inv db' := by
  refine ⟨?_, ?_, ?_, ?_, ?_, ?_⟩
  · intro i hi; rw [hu] at hi; exact lt_of_lt_of_le (h.uidsBound i hi) hn
  · rw [hu]; exact h.uidsDistinct
  · intro i hi; rw [ho] at hi; exact lt_of_lt_of_le (h.orderUserBound i hi) hn
  · intro i hi; rw [ht] at hi; exact lt_of_lt_of_le (h.txUserBound i hi) hn
  · intro u hu'; rw [hu] at hu'; rw [ht]; exact h.balanced u hu'
  · rw [hs]; exact h.fpDistinct

/-- The core ledger argument: updating the (unique) user with uid `uid` by
exactly the appended transaction's amount keeps every balance equal to its
transaction sum. -/
theorem balanced_updateFirst (uid : Nat) (tx : WalletTx) (htu : tx.user = uid)
    (f : User → User) (hfu : ∀ v, (f v).uid = v.uid) (txs : List WalletTx) :
    ∀ l : List User, (l.map User.uid).Pairwise (· ≠ ·) →
      (∀ u ∈ l, u.balance = txSum u.uid txs) →
      (∀ v ∈ l, v.uid = uid → (f v).balance = v.balance + tx.amount) →
      ∀ u' ∈ updateFirst (fun v => v.uid == uid) f l,
        u'.balance = txSum u'.uid (txs ++ [tx]) := by
  intro l
  induction l with
  | nil => intro _ _ _ u' hu'; simp [updateFirst] at hu'
  | cons x xs ih =>
    intro hdist hbal hfb u' hu'
    simp only [List.map_cons, List.pairwise_cons] at hdist
    obtain ⟨hhead, htail⟩ := hdist
    by_cases hx : x.uid = uid
    · have hxb : (fun v => v.uid == uid) x = true := by simp [hx]
      simp only [updateFirst, hxb, if_true, List.mem_cons] at hu'
      rcases hu' with rfl | hu'
      · rw [txSum_append, hfu, hfb x (by simp) hx]
        have : txSum x.uid [tx] = tx.amount := by
          simp [txSum, htu, hx]
        rw [this, hbal x (by simp)]
      · have hne : u'.uid ≠ uid := by
          intro hEq
          exact hhead u'.uid (List.mem_map_of_mem _ hu') (by rw [hEq, hx])
        rw [txSum_append]
        have hnu : tx.user ≠ u'.uid := by
          rw [htu]; exact fun hh => hne hh.symm
        have : txSum u'.uid [tx] = 0 := by simp [txSum, hnu]
        rw [this, add_zero]
        exact hbal u' (by simp [hu'])
    · have hxb : (fun v => v.uid == uid) x = false := by simp [hx]
      simp only [updateFirst, hxb, Bool.false_eq_true, if_false,
        List.mem_cons] at hu'
      rcases hu' with rfl | hu'
      · rw [txSum_append]
        have hnu : tx.user ≠ u'.uid := by
          rw [htu]; exact fun hh => hx hh.symm
        have : txSum u'.uid [tx] = 0 := by simp [txSum, hnu]
        rw [this, add_zero]
        exact hbal u' (by simp)
      · exact ih htail (fun v hv => hbal v (by simp [hv]))
          (fun v hv => hfb v (by simp [hv])) u' hu'

/-- Balance bump plus one logged transaction of the same amount preserves
the invariant (the shape shared by `credit_wallet` and `debit_wallet`). -/
theorem inv_bump (db : DB) (h : Inv db) (userId : Nat) (u : User) (newB : Paisa)
    (hfind : db.users.find? (fun v => v.uid == userId) = some u)
    (tx : WalletTx) (htu : tx.user = userId)
    (hnb : newB = u.balance + tx.amount) :
    Inv { db with
      users := updateFirst (fun v => v.uid == userId)
        (fun v => { v with balance := newB }) db.users,
      txs := db.txs ++ [tx] } := by
  have humem : u ∈ db.users := List.mem_of_find?_eq_some hfind
  have huid : u.uid = userId := by
    have := List.find?_some hfind
    simpa using this
  have hmapu : (updateFirst (fun v => v.uid == userId)
      (fun v => { v with balance := newB }) db.users).map User.uid
      = db.users.map User.uid :=
    map_updateFirst User.uid (fun v => v.uid == userId)
      (fun v => { v with balance := newB }) (fun a => rfl) db.users
  refine ⟨?_, ?_, ?_, ?_, ?_, ?_⟩
  · intro i hi; rw [hmapu] at hi; exact h.uidsBound i hi
  · rw [hmapu]; exact h.uidsDistinct
  · exact h.orderUserBound
  · intro i hi
    simp only [List.map_append] at hi
    rcases List.mem_append.mp hi with hi | hi
    · exact h.txUserBound i hi
    · simp only [List.map_cons, List.map_nil, List.mem_singleton] at hi
      subst hi
      rw [htu, ← huid]
      exact h.uidsBound u.uid (List.mem_map_of_mem _ humem)
  · intro u' hu'
    refine balanced_updateFirst userId tx htu
      (fun v => { v with balance := newB }) (fun v => rfl) db.txs db.users
      h.uidsDistinct h.balanced ?_ u' hu'
    intro v hv hvid
    have : v = u := eq_of_pairwise_map User.uid h.uidsDistinct hv humem
      (by rw [hvid, huid])
    subst this
    simpa using hnb
  · exact h.fpDistinct

theorem inv_credit_wallet (db : DB) (h : Inv db) (userId : Nat) (amount : Paisa)
    (ty : String) (oid : Option Nat) (descr : String) (now : Time) :
    Inv (credit_wallet db userId amount ty oid descr now).1 := by
  unfold credit_wallet
  split
  · exact h
  · split
    · exact h
    · rename_i u hfind
      exact inv_bump db h userId u (u.balance + amount) hfind _ rfl rfl

theorem inv_debit_wallet (db : DB) (h : Inv db) (userId : Nat) (amount : Paisa)
    (ty : String) (oid : Option Nat) (descr : String) (now : Time) :
    Inv (debit_wallet db userId amount ty oid descr now).1 := by
  unfold debit_wallet
  split
  · exact h
  · split
    · exact h
    · rename_i u hfind
      split
      · exact h
      · refine inv_bump db h userId u (u.balance - amount) hfind _ rfl ?_
        simp [sub_eq_add_neg]

theorem inv_updateSms (db : DB) (h : Inv db) (sid : Nat) (f : SmsDoc → SmsDoc)
    (hf : ∀ m, (f m).fingerprint = m.fingerprint) : Inv (updateSms db sid f) :=
  inv_frame h rfl rfl rfl (map_updateFirst _ _ _ hf _) le_rfl

theorem inv_pushAlert (db : DB) (h : Inv db) (a : Alert) : Inv (pushAlert db a) :=
  inv_frame h rfl rfl rfl rfl le_rfl

/-- `update_one` on orders with an ownership-preserving rewrite keeps `Inv`. -/
theorem inv_updateOrder (db : DB) (h : Inv db) (p : Order → Bool)
    (f : Order → Order) (hf : ∀ o, (f o).userId = o.userId) :
    Inv { db with orders := updateFirst p f db.orders } :=
  inv_frame h rfl rfl (map_updateFirst _ _ _ hf _) rfl le_rfl

theorem inv_add_to_queue (db : DB) (h : Inv db) (orderId : Nat) (now : Time) :
    Inv (add_to_queue db orderId now) := by
  unfold add_to_queue
  split
  · exact h
  · split
    · exact inv_updateOrder db h _ _ (fun o => rfl)
    · split
      · exact inv_updateOrder db h _ _ (fun o => rfl)
      · exact inv_updateOrder db h _ _ (fun o => rfl)

theorem inv_process_payment (db : DB) (h : Inv db) (order : Order)
    (payment : Paisa) (rrn : Option String) (raw fp : Option String)
    (now : Time) : Inv (process_payment db order payment rrn raw fp now).1 := by
  unfold process_payment
  by_cases hc1 : order.paymentRequired * MAX_OVERPAYMENT_RATIO < payment
  · simp only [hc1, if_true]
    exact inv_updateOrder db h _ _ (fun o => rfl)
  · simp only [hc1, if_false]
    by_cases hc2 : MAX_AUTO_CREDIT_AMOUNT_PAISA < max 0 (payment - order.paymentRequired)
    · simp only [hc2, if_true]
      exact inv_updateOrder db h _ _ (fun o => rfl)
    · simp only [hc2, if_false]
      have h1 := inv_updateOrder db h (fun o => o.oid == order.oid)
        (fun o =>
          { o with status := "paid", paymentReceived := payment,
                   paymentRrn := rrn, rawMessage := raw, smsFingerprint := fp,
                   overpayment := max 0 (payment - order.paymentRequired),
                   updatedAt := now })
        (fun o => rfl)
      by_cases hc3 : (0 : Paisa) < max 0 (payment - order.paymentRequired)
      · simp only [hc3, if_true]
        by_cases hc4 : (order.orderType = "wallet_load"
            && decide (0 < order.loadAmount)) = true
        · simp only [hc4, if_true]
          exact inv_credit_wallet _ (inv_credit_wallet _ h1 _ _ _ _ _ _) _ _ _ _ _ _
        · simp only [hc4, if_false]
          exact inv_credit_wallet _ h1 _ _ _ _ _ _
      · simp only [hc3, if_false]
        by_cases hc4 : (order.orderType = "wallet_load"
            && decide (0 < order.loadAmount)) = true
        · simp only [hc4, if_true]
          exact inv_credit_wallet _ h1 _ _ _ _ _ _
        · simp only [hc4, if_false]
          exact h1

theorem inv_try_match (db : DB) (h : Inv db) (smsDoc : SmsDoc) (now : Time) :
    Inv (try_match_sms_to_orders db smsDoc now).1 := by
  simp only [try_match_sms_to_orders]
  repeat' split
  all_goals dsimp only
  all_goals
    first
      | exact h
      | exact inv_updateSms db h _ _ (fun m => rfl)
      | (apply inv_pushAlert
         exact inv_updateSms db h _ _ (fun m => rfl))

theorem inv_insertSms (db : DB) (h : Inv db) (doc : SmsDoc)
    (hfp : ∀ m ∈ db.sms, ¬ (m.fingerprint == doc.fingerprint) = true) :
    Inv { db with sms := db.sms ++ [doc], nextId := db.nextId + 1 } := by
  refine ⟨?_, ?_, ?_, ?_, ?_, ?_⟩
  · intro i hi; exact Nat.lt_succ_of_lt (h.uidsBound i hi)
  · exact h.uidsDistinct
  · intro i hi; exact Nat.lt_succ_of_lt (h.orderUserBound i hi)
  · intro i hi; exact Nat.lt_succ_of_lt (h.txUserBound i hi)
  · exact h.balanced
  · refine pairwise_map_append_one _ _ _ h.fpDistinct ?_
    intro m hm
    have := hfp m hm
    simpa using this

theorem inv_try_match_pair {db db2 : DB} {doc : SmsDoc} {now : Time}
    {r : Option Order} (h : Inv db)
    (heq : try_match_sms_to_orders db doc now = (db2, r)) : Inv db2 := by
  have h2 := inv_try_match db h doc now
  rw [heq] at h2
  exact h2

theorem inv_receive_sms (db : DB) (h : Inv db) (raw : String) (now : Time) :
    Inv (receive_sms db raw now).1 := by
  simp only [receive_sms]
  split
  · exact h
  · split
    · exact h
    · rename_i parsed hparse hany
      have hnot : ∀ m ∈ db.sms, ¬ (m.fingerprint == pyStrip raw) = true := by
        refine (any_eq_false_iff _ _).mp ?_
        exact Bool.not_eq_true _ ▸ Bool.of_not_eq_true hany
      have h1 := inv_insertSms db h
        { sid := db.nextId, rawMessage := raw, fingerprint := pyStrip raw,
          amount := parsed.amount, last3 := parsed.last3, rrn := parsed.rrn,
          method := parsed.method, remark := parsed.remark, receivedAt := none,
          parsedAt := now, used := false, matchedOrderId := none,
          matchedAt := none, suspicious := false, suspiciousReason := none,
          manualReviewReason := none, status := none } hnot
      split
      · rename_i db2 heq
        exact inv_try_match_pair h1 heq
      · rename_i db2 best heq
        have h2 := inv_try_match_pair h1 heq
        split
        · exact h2
        · have h3 := inv_process_payment db2 h2 best
            (parsed.amount.getD 0) parsed.rrn (some raw) (some (pyStrip raw)) now
          have h4 := inv_updateSms _ h3 db.nextId
            (fun m => { m with used := true, matchedOrderId := some best.oid,
                               matchedAt := some now }) (fun m => rfl)
          split
          · exact inv_add_to_queue _ h4 best.oid now
          · exact h4

theorem inv_sms_ingest (db : DB) (h : Inv db) (req : IngestReq) (now : Time) :
    Inv (sms_ingest db req now).1 := by
  simp only [sms_ingest]
  split
  · exact h
  · rename_i hany
    split
    · exact h
    · split
      · exact h
      · rename_i parsed hparse
        have hnot : ∀ m ∈ db.sms, ¬ (m.fingerprint == req.fingerprint) = true := by
          refine (any_eq_false_iff _ _).mp ?_
          exact Bool.not_eq_true _ ▸ Bool.of_not_eq_true hany
        have h1 := inv_insertSms db h
          { sid := db.nextId, rawMessage := req.rawMessage,
            fingerprint := req.fingerprint,
            amount := pyOrInt req.amount parsed.amount,
            last3 := pyOrStr req.last3 parsed.last3,
            rrn := pyOrStr req.rrn parsed.rrn,
            method := pyOrStr req.method parsed.method,
            remark := pyOrStr req.remark parsed.remark,
            receivedAt := some req.receivedAt, parsedAt := now, used := false,
            matchedOrderId := none, matchedAt := none, suspicious := false,
            suspiciousReason := none, manualReviewReason := none,
            status := none } hnot
        split
        · rename_i db2 best heq
          exact inv_try_match_pair h1 heq
        · rename_i db2 heq
          exact inv_try_match_pair h1 heq

theorem inv_admin_input_sms (db : DB) (h : Inv db) (raw : String) (now : Time) :
    Inv (admin_input_sms db raw now).1 := by
  simp only [admin_input_sms]
  split
  · exact h
  · rename_i parsed
    split
    · exact h
    · rename_i hany
      refine inv_insertSms db h _ ?_
      refine (any_eq_false_iff _ _).mp ?_
      exact Bool.not_eq_true _ ▸ Bool.of_not_eq_true hany

theorem inv_insertOrder (db : DB) (h : Inv db) (o : Order)
    (ho : o.userId < db.nextId) :
    Inv { db with orders := db.orders ++ [o], nextId := db.nextId + 1 } := by
  refine ⟨?_, ?_, ?_, ?_, ?_, ?_⟩
  · intro i hi; exact Nat.lt_succ_of_lt (h.uidsBound i hi)
  · exact h.uidsDistinct
  · intro i hi
    simp only [List.map_append, List.map_cons, List.map_nil] at hi
    rcases List.mem_append.mp hi with hi | hi
    · exact Nat.lt_succ_of_lt (h.orderUserBound i hi)
    · simp only [List.mem_singleton] at hi
      subst hi
      exact Nat.lt_succ_of_lt ho
  · intro i hi; exact Nat.lt_succ_of_lt (h.txUserBound i hi)
  · exact h.balanced
  · exact h.fpDistinct

theorem inv_signup (db : DB) (h : Inv db) (username : String) :
    Inv (signup db username).1 := by
  simp only [signup]
  split
  · exact h
  · refine ⟨?_, ?_, ?_, ?_, ?_, ?_⟩
    · intro i hi
      simp only [List.map_append, List.map_cons, List.map_nil] at hi
      rcases List.mem_append.mp hi with hi | hi
      · exact Nat.lt_succ_of_lt (h.uidsBound i hi)
      · simp only [List.mem_singleton] at hi
        subst hi
        exact Nat.lt_succ_self _
    · refine pairwise_map_append_one _ _ _ h.uidsDistinct ?_
      intro x hx hEq
      have hb := h.uidsBound x.uid (List.mem_map_of_mem _ hx)
      rw [hEq] at hb
      exact absurd hb (lt_irrefl _)
    · intro i hi; exact Nat.lt_succ_of_lt (h.orderUserBound i hi)
    · intro i hi; exact Nat.lt_succ_of_lt (h.txUserBound i hi)
    · intro u hu
      rcases List.mem_append.mp hu with hu | hu
      · exact h.balanced u hu
      · simp only [List.mem_singleton] at hu
        subst hu
        refine (txSum_eq_zero _ _ ?_).symm
        intro t ht hEq
        have hb := h.txUserBound t.user (List.mem_map_of_mem _ ht)
        rw [hEq] at hb
        exact absurd hb (lt_irrefl _)
    · exact h.fpDistinct

theorem inv_create_product_order (db : DB) (h : Inv db) (userId : Nat)
    (playerUid : String) (price : Paisa) (now : Time) :
    Inv (create_product_order db userId playerUid price now).1 := by
  simp only [create_product_order]
  split
  · exact h
  · split
    · exact h
    · rename_i u hfind
      split
      · exact h
      · have huid : userId < db.nextId := by
          have hmem : u ∈ db.users := List.mem_of_find?_eq_some hfind
          have heq : u.uid = userId := by simpa using List.find?_some hfind
          rw [← heq]
          exact h.uidsBound u.uid (List.mem_map_of_mem _ hmem)
        repeat' split
        all_goals
          first
            | (refine inv_add_to_queue _
                 (inv_debit_wallet _ (inv_insertOrder db h _ ?_) _ _ _ _ _ _) _ now
               exact huid)
            | (refine inv_debit_wallet _ (inv_insertOrder db h _ ?_) _ _ _ _ _ _
               exact huid)
            | (refine inv_add_to_queue _ (inv_insertOrder db h _ ?_) _ now
               exact huid)
            | (refine inv_insertOrder db h _ ?_
               exact huid)

theorem inv_create_wallet_load (db : DB) (h : Inv db) (userId : Nat)
    (loadRupees : Int) (now : Time) :
    Inv (create_wallet_load_order db userId loadRupees now).1 := by
  simp only [create_wallet_load_order]
  split
  · exact h
  · split
    · exact h
    · rename_i u hfind
      split
      · exact h
      · refine inv_insertOrder db h _ ?_
        have hmem : u ∈ db.users := List.mem_of_find?_eq_some hfind
        have heq : u.uid = userId := by simpa using List.find?_some hfind
        show userId < db.nextId
        rw [← heq]
        exact h.uidsBound u.uid (List.mem_map_of_mem _ hmem)

/-- Shared shape of the two admin wallet mutations: balance update, one paired
transaction, one synthetic order, fresh id. -/
theorem inv_admin_mut (db : DB) (h : Inv db) (userId : Nat) (u : User)
    (hfind : db.users.find? (fun v => v.uid == userId) = some u)
    (newB : Paisa) (tx : WalletTx) (htu : tx.user = userId)
    (hnb : newB = u.balance + tx.amount) (o : Order) (ho : o.userId = userId) :
    Inv { db with
      nextId := db.nextId + 1,
      users := updateFirst (fun v => v.uid == userId)
        (fun v => { v with balance := newB }) db.users,
      txs := db.txs ++ [tx],
      orders := db.orders ++ [o] } := by
  have humem : u ∈ db.users := List.mem_of_find?_eq_some hfind
  have huid : u.uid = userId := by simpa using List.find?_some hfind
  have hbound : userId < db.nextId := by
    rw [← huid]; exact h.uidsBound u.uid (List.mem_map_of_mem _ humem)
  have hmapu : (updateFirst (fun v => v.uid == userId)
      (fun v => { v with balance := newB }) db.users).map User.uid
      = db.users.map User.uid :=
    map_updateFirst User.uid (fun v => v.uid == userId)
      (fun v => { v with balance := newB }) (fun a => rfl) db.users
  refine ⟨?_, ?_, ?_, ?_, ?_, ?_⟩
  · intro i hi; rw [hmapu] at hi
    exact Nat.lt_succ_of_lt (h.uidsBound i hi)
  · rw [hmapu]; exact h.uidsDistinct
  · intro i hi
    simp only [List.map_append, List.map_cons, List.map_nil] at hi
    rcases List.mem_append.mp hi with hi | hi
    · exact Nat.lt_succ_of_lt (h.orderUserBound i hi)
    · simp only [List.mem_singleton] at hi
      subst hi
      rw [ho]
      exact Nat.lt_succ_of_lt hbound
  · intro i hi
    simp only [List.map_append, List.map_cons, List.map_nil] at hi
    rcases List.mem_append.mp hi with hi | hi
    · exact Nat.lt_succ_of_lt (h.txUserBound i hi)
    · simp only [List.mem_singleton] at hi
      subst hi
      rw [htu]
      exact Nat.lt_succ_of_lt hbound
  · intro u' hu'
    refine balanced_updateFirst userId tx htu
      (fun v => { v with balance := newB }) (fun v => rfl) db.txs db.users
      h.uidsDistinct h.balanced ?_ u' hu'
    intro v hv hvid
    have : v = u := eq_of_pairwise_map User.uid h.uidsDistinct hv humem
      (by rw [hvid, huid])
    subst this
    simpa using hnb
  · exact h.fpDistinct

theorem inv_admin_recharge (db : DB) (h : Inv db) (userId : Nat)
    (amount : Paisa) (reason : String) (now : Time) :
    Inv (admin_wallet_recharge db userId amount reason now).1 := by
  simp only [admin_wallet_recharge]
  split
  · exact h
  · split
    · exact h
    · rename_i u hfind
      split
      · exact h
      · exact inv_admin_mut db h userId u hfind (u.balance + amount)
          { user := userId, txType := "credit", amount := amount,
            orderRef := some db.nextId, balanceBefore := some u.balance,
            balanceAfter := some (u.balance + amount), description := reason,
            createdAt := now } rfl rfl
          (adminWalletOrder db.nextId userId amount amount reason
            "ADMIN_RECHARGE_" now) rfl

theorem inv_admin_redeem (db : DB) (h : Inv db) (userId : Nat)
    (amount : Paisa) (reason : String) (now : Time) :
    Inv (admin_wallet_redeem db userId amount reason now).1 := by
  simp only [admin_wallet_redeem]
  split
  · exact h
  · split
    · exact h
    · rename_i u hfind
      split
      · exact h
      · split
        · exact h
        · split
          · exact h
          · refine inv_admin_mut db h userId u hfind (u.balance - amount)
              { user := userId, txType := "debit", amount := -amount,
                orderRef := some db.nextId, balanceBefore := some u.balance,
                balanceAfter := some (u.balance - amount), description := reason,
                createdAt := now } rfl ?_
              (adminWalletOrder db.nextId userId amount (-amount) reason
                "ADMIN_REDEEM_" now) rfl
            simp [sub_eq_add_neg]

theorem inv_link_payment (db : DB) (h : Inv db) (paymentId orderId : Nat)
    (now : Time) : Inv (link_payment_to_order db paymentId orderId now).1 := by
  simp only [link_payment_to_order]
  split
  · exact h
  · rename_i payment hfindp
    split
    · exact h
    · split
      · exact h
      · rename_i order hfindo
        have h1 := inv_process_payment db h order (payment.amount.getD 0)
          payment.rrn (some payment.rawMessage) (some payment.fingerprint) now
        have h2 := inv_updateSms _ h1 paymentId
          (fun m => { m with used := true, matchedOrderId := some orderId,
                             matchedAt := some now }) (fun m => rfl)
        split
        · exact inv_add_to_queue _ h2 orderId now
        · exact h2

theorem inv_mapOrders (db : DB) (h : Inv db) (f : Order → Order)
    (hf : ∀ o, (f o).userId = o.userId) :
    Inv { db with orders := db.orders.map f } := by
  refine inv_frame h rfl rfl ?_ rfl le_rfl
  show (db.orders.map f).map Order.userId = db.orders.map Order.userId
  rw [List.map_map]
  exact List.map_congr_left (fun o _ => hf o)

theorem inv_mapSms (db : DB) (h : Inv db) (f : SmsDoc → SmsDoc)
    (hf : ∀ m, (f m).fingerprint = m.fingerprint) :
    Inv { db with sms := db.sms.map f } := by
  refine inv_frame h rfl rfl rfl ?_ le_rfl
  show (db.sms.map f).map SmsDoc.fingerprint = db.sms.map SmsDoc.fingerprint
  rw [List.map_map]
  exact List.map_congr_left (fun m _ => hf m)

theorem applyRefund_nextId (db : DB) (o : Order) (now : Time) :
    (applyRefund db o now).nextId = db.nextId := by
  unfold applyRefund
  split <;> rfl

theorem inv_applyRefund (db : DB) (h : Inv db) (o : Order)
    (ho : o.userId < db.nextId) (now : Time) : Inv (applyRefund db o now) := by
  unfold applyRefund
  split
  · have hmapu := map_updateFirst User.uid (fun u => u.uid == o.userId)
      (fun u => { u with balance := u.balance + o.walletUsed })
      (fun a => rfl) db.users
    refine ⟨?_, ?_, ?_, ?_, ?_, ?_⟩
    · intro i hi
      rw [hmapu] at hi
      exact h.uidsBound i hi
    · rw [hmapu]
      exact h.uidsDistinct
    · exact h.orderUserBound
    · intro i hi
      simp only [List.map_append, List.map_cons, List.map_nil] at hi
      rcases List.mem_append.mp hi with hi | hi
      · exact h.txUserBound i hi
      · simp only [List.mem_singleton] at hi
        subst hi
        exact ho
    · intro u' hu'
      exact balanced_updateFirst o.userId (refundTx o now) rfl
        (fun u => { u with balance := u.balance + o.walletUsed })
        (fun v => rfl) db.txs db.users h.uidsDistinct h.balanced
        (fun v _ _ => rfl) u' hu'
    · exact h.fpDistinct
  · exact h

theorem inv_foldRefund (now : Time) : ∀ (targets : List Order) (db : DB),
    Inv db → (∀ o ∈ targets, o.userId < db.nextId) →
    Inv (targets.foldl (fun d o => applyRefund d o now) db) := by
  intro targets
  induction targets with
  | nil => intro db h _; exact h
  | cons o os ih =>
    intro db h hb
    simp only [List.foldl_cons]
    refine ih _ (inv_applyRefund db h o (hb o (by simp)) now) ?_
    intro o' ho'
    rw [applyRefund_nextId]
    exact hb o' (by simp [ho'])

theorem inv_expireStage1 (db : DB) (h : Inv db) (now : Time) :
    Inv (expireStage1 db now) := by
  simp only [expireStage1]
  exact inv_mapOrders db h _ (fun o => by split <;> rfl)

theorem expireStage1_nextId (db : DB) (now : Time) :
    (expireStage1 db now).nextId = db.nextId := rfl

theorem inv_expire (db : DB) (h : Inv db) (now : Time) :
    Inv (expire_old_orders db now) := by
  simp only [expire_old_orders]
  split
  · exact inv_expireStage1 db h now
  · rename_i hmod
    have h1 := inv_expireStage1 db h now
    refine inv_foldRefund now _ _ h1 ?_
    intro o ho
    have hmem : o ∈ (expireStage1 db now).orders :=
      List.mem_of_mem_filter (List.mem_of_mem_take ho)
    exact h1.orderUserBound o.userId (List.mem_map_of_mem _ hmem)

theorem inv_flag_sms (db : DB) (h : Inv db) (now : Time) :
    Inv (flag_suspicious_sms db now) := by
  simp only [flag_suspicious_sms]
  exact inv_mapSms db h _ (fun m => by split <;> rfl)

theorem inv_cleanup (db : DB) (h : Inv db) (now : Time) :
    Inv (cleanup_processing_orders db now) := by
  simp only [cleanup_processing_orders]
  exact inv_mapOrders db h _ (fun o => by split <;> rfl)

theorem inv_check_breaker (db : DB) (h : Inv db) (now : Time) :
    Inv (check_circuit_breaker db now).1 := by
  simp only [check_circuit_breaker]
  split
  · split
    · apply inv_pushAlert
      exact inv_frame h rfl rfl rfl rfl le_rfl
    · exact h
  · exact h

theorem inv_record_fail (db : DB) (h : Inv db) (now : Time) :
    Inv { db with failures := record_automation_failure db.failures now } :=
  inv_frame h rfl rfl rfl rfl le_rfl

theorem inv_process_automation (db : DB) (h : Inv db) (orderId : Nat)
    (hasGarena : Bool) (verdict : Bool × String) (now : Time) :
    Inv (process_automation_order db orderId hasGarena verdict now) := by
  simp only [process_automation_order]
  split
  · exact h
  · split
    · exact h
    · have h1 := inv_updateOrder db h (fun x => x.oid == orderId)
        (fun x =>
          { x with status := "processing", automationState := some "started",
                   processingStartedAt := some now, updatedAt := now })
        (fun o => rfl)
      split
      · exact inv_updateOrder _ h1 _ _ (fun o => rfl)
      · split
        · exact inv_updateOrder _ h1 _ _ (fun o => rfl)
        · apply inv_check_breaker
          apply inv_record_fail
          split
          · exact inv_updateOrder _ h1 _ _ (fun o => rfl)
          · split
            · exact inv_updateOrder _ h1 _ _ (fun o => rfl)
            · exact inv_updateOrder _ h1 _ _ (fun o => rfl)

theorem inv_update_settings (db : DB) (h : Inv db) (u : SettingsUpdate) :
    Inv (update_settings db u).1 := by
  simp only [update_settings]
  repeat' split
  all_goals
    first
      | exact h
      | exact inv_frame h rfl rfl rfl rfl le_rfl

/-- Every single operation of the core preserves the invariant. -/
theorem inv_step {db db' : DB} (h : Inv db) (hs : Step db db') : Inv db' := by
  cases hs with
  | signup username => exact inv_signup db h username
  | productOrder userId playerUid price now =>
    exact inv_create_product_order db h userId playerUid price now
  | walletLoadOrder userId loadRupees now =>
    exact inv_create_wallet_load db h userId loadRupees now
  | recvSms raw now => exact inv_receive_sms db h raw now
  | ingestSms req now => exact inv_sms_ingest db h req now
  | adminSms raw now => exact inv_admin_input_sms db h raw now
  | credit userId amount ty oid descr now =>
    exact inv_credit_wallet db h userId amount ty oid descr now
  | debit userId amount ty oid descr now =>
    exact inv_debit_wallet db h userId amount ty oid descr now
  | procPayment order payment rrn raw fp now =>
    exact inv_process_payment db h order payment rrn raw fp now
  | linkPayment paymentId orderId now =>
    exact inv_link_payment db h paymentId orderId now
  | addQueue orderId now => exact inv_add_to_queue db h orderId now
  | expire now => exact inv_expire db h now
  | flagSms now => exact inv_flag_sms db h now
  | cleanup now => exact inv_cleanup db h now
  | automation orderId hasGarena verdict now =>
    exact inv_process_automation db h orderId hasGarena verdict now
  | recordFail now => exact inv_record_fail db h now
  | checkBreaker now => exact inv_check_breaker db h now
  | adminRecharge userId amount reason now =>
    exact inv_admin_recharge db h userId amount reason now
  | adminRedeem userId amount reason now =>
    exact inv_admin_redeem db h userId amount reason now
  | settingsUpd u => exact inv_update_settings db h u

theorem inv_dbInit : Inv dbInit := by
  refine ⟨?_, ?_, ?_, ?_, ?_, ?_⟩ <;> simp [dbInit]

/-- The invariant holds in every reachable state. -/
theorem inv_reachable {db : DB} (h : Reachable db) : Inv db := by
  induction h with
  | refl => exact inv_dbInit
  | tail _ hstep ih => exact inv_step ih hstep

/-! ### Concrete scenario states used by the claim theorems -/

/-- A baseline product-topup order used (with field tweaks) by the scenarios. -/
def baseOrder : Order :=
  { oid := 1, orderType := "product_topup", userId := 0,
    playerUid := some "12345678", lockedPrice := 500, loadAmount := 0,
    walletUsed := 100, paymentRequired := 400, paymentAmount := 400,
    paymentLast3 := none, paymentRrn := none, paymentReceived := 0,
    rawMessage := none, smsFingerprint := none, overpayment := 0,
    status := "pending_payment", automationState := none,
    suspiciousReason := none, manualPendingReason := none, retryCount := 0,
    createdAt := 0, updatedAt := 0, queuedAt := none,
    processingStartedAt := none, completedAt := none, expiredAt := none }

/-- C9: order A paid 100 from the wallet, created at minute 0; order B with no
wallet portion, created at minute 2; one user whose balance is 0 (A's wallet
portion was already debited). -/
def c9OrderA : Order := baseOrder

def c9OrderB : Order :=
  { baseOrder with oid := 2, walletUsed := 0, paymentRequired := 500, createdAt := 2 }

def c9DB : DB :=
  { users := [⟨0, "alice", 0, false⟩], orders := [c9OrderA, c9OrderB],
    sms := [], txs := [], alerts := [], settings := defaultSettings,
    failures := [], nextId := 3 }

/-- The expire job run at minute 1441 (A passes the 1440-minute expiry), then
again at minute 1443 (B passes it). -/
def c9Run1 : DB := expire_old_orders c9DB 1441

def c9Run2 : DB := expire_old_orders c9Run1 1443

/-- C9, code bug: the first run refunds order A once, as specified; but the
second run — triggered because order B newly expires — matches A again in its
refund query (`expired` within the last 5 minutes, positive wallet portion,
no "already refunded" marker) and refunds A a second time, leaving the owner
with 200 paisa where only 100 was ever debited.  The job is therefore not
idempotent under runs in close succession. -/
theorem C9_double_refund_on_rerun :
    (c9Run1.txs.filter (fun t => t.txType == "refund" && t.orderRef == some 1)).length = 1
    ∧ (c9Run2.txs.filter (fun t => t.txType == "refund" && t.orderRef == some 1)).length = 2
    ∧ c9Run1.users.map User.balance = [100]
    ∧ c9Run2.users.map User.balance = [200]
    ∧ c9Run2.orders.map Order.status = ["expired", "expired"] := by
  decide

/-- C10, code bug: on the input `"Rs ,"` the amount regex matches with
captured group `","`, and `float(','.replace(',', ''))` = `float('')` raises
`ValueError` — `parse_sms_message` is not total.  On an input where the
amount is merely absent, the other fields are still extracted. -/
theorem C10_parser_raises_on_comma_amount :
    parse_sms_message "Rs ," = Except.error "could not convert string to float"
    ∧ parse_sms_message "hello RRN 77 a"
        = Except.ok { amount := none, last3 := none, rrn := some "77",
                      method := none, remark := none } := by
  constructor <;> rfl

/-- C3's scenario: one pending order requiring 50000 paisa with recorded
last-3 digits "910"; the same payment evidence submitted through each of the
two ingestion endpoints. -/
def c3Order : Order :=
  { baseOrder with
      walletUsed := 0, paymentRequired := 50000, paymentAmount := 50000,
      lockedPrice := 50000, paymentLast3 := some "910", createdAt := 10,
      updatedAt := 10 }

def c3DB : DB :=
  { users := [⟨0, "alice", 0, false⟩], orders := [c3Order], sms := [],
    txs := [], alerts := [], settings := defaultSettings, failures := [],
    nextId := 2 }

def c3Raw : String := "Received Rs 500 from 900XX910, RRN 88, ok /bKash"

def c3Req : IngestReq :=
  { rawMessage := c3Raw, receivedAt := 15, amount := some 50000,
    last3 := some "910", rrn := some "88", remark := none, method := none,
    fingerprint := "fp-ingest-1" }

/-- C3, code bug: on the same matching payment, `sms_ingest` answers
`matched = true` with the matched order id but performs none of the core
effects — the order stays `pending_payment`, no ledger transaction is
written, and the stored notification stays `used = false` (so the
flag-suspicious job will later mark this "matched" payment as unmatched);
`receive_sms` on the identical evidence applies the payment (the order
advances out of `pending_payment` — here to `manual_pending` since
auto-fulfillment is off — with the RRN and received amount recorded) and
marks the notification used. -/
theorem C3_ingest_reports_match_without_applying_it :
    (sms_ingest c3DB c3Req 20).2
      = Except.ok { statusCode := 200, ok := true, status := "accepted",
                    matched := some true, matchedOrderId := some 1 }
    ∧ (sms_ingest c3DB c3Req 20).1.orders.map Order.status = ["pending_payment"]
    ∧ (sms_ingest c3DB c3Req 20).1.txs = []
    ∧ (sms_ingest c3DB c3Req 20).1.sms.map SmsDoc.used = [false]
    ∧ (receive_sms c3DB c3Raw 20).2
      = Except.ok { duplicate := false, matched := some true, orderId := some 1 }
    ∧ (receive_sms c3DB c3Raw 20).1.orders.map Order.status = ["manual_pending"]
    ∧ (receive_sms c3DB c3Raw 20).1.orders.map Order.paymentRrn = [some "88"]
    ∧ (receive_sms c3DB c3Raw 20).1.orders.map Order.paymentReceived = [50000]
    ∧ (receive_sms c3DB c3Raw 20).1.sms.map SmsDoc.used = [true] := by
  refine ⟨rfl, rfl, rfl, rfl, rfl, rfl, rfl, rfl, rfl⟩

/-- C7's counterexample state: breaker threshold configured to 1, one failure
recorded at minute 5, auto-fulfillment currently off (its default). -/
def c7DB : DB :=
  { users := [], orders := [], sms := [], txs := [], alerts := [],
    settings := { defaultSettings with automationFailThreshold := 1 },
    failures := [5], nextId := 0 }

/-- C7 counterexample: with threshold N = 1 and the 1st (= Nth) failure
inside the window, the breaker check reports "trip" but creates no critical
alert at all and changes nothing — because `auto_topup` was already off (its
default value).  The claim's "creates exactly one critical alert" fails. -/
theorem C7_counterexample_no_alert_when_autotopup_off :
    (check_circuit_breaker c7DB 5).2 = true
    ∧ (check_circuit_breaker c7DB 5).1 = c7DB
    ∧ (check_circuit_breaker c7DB 5).1.alerts.length = 0 := by
  refine ⟨rfl, rfl, rfl⟩

/-- C6's counterexample state: 21 matching `pending_payment` orders for the
same last-3 digits; the 20 oldest require 400, the newest (created at 21)
requires exactly the 500 being paid. -/
def c6Order (i : Nat) : Order :=
  { baseOrder with
      oid := i, walletUsed := 0,
      paymentRequired := (if i = 21 then 500 else 400),
      paymentAmount := 500, paymentLast3 := some "910", createdAt := (i : Int) }

def c6DB : DB :=
  { users := [⟨0, "alice", 0, false⟩],
    orders := (List.range 21).map (fun i => c6Order (i + 1)), sms := [],
    txs := [], alerts := [], settings := defaultSettings, failures := [],
    nextId := 30 }

def c6Sms : SmsDoc :=
  { sid := 25, rawMessage := "x", fingerprint := "fp-c6", amount := some 500,
    last3 := some "910", rrn := none, method := none, remark := none,
    receivedAt := none, parsedAt := 0, used := false, matchedOrderId := none,
    matchedAt := none, suspicious := false, suspiciousReason := none,
    manualReviewReason := none, status := none }

/-- C6 counterexample: the matcher's query is capped at the 20 oldest
candidates (`.to_list(20)`), so it selects the oldest 400-paisa order
(overpayment 100) even though the 21st candidate — in `pending_payment`,
matching digits, required 500 ≤ 500 — has strictly smaller overpayment 0.
The claim's "considers exactly the orders … and among all such candidates
selects the one minimizing payment − required" fails. -/
theorem C6_counterexample_only_20_oldest_considered :
    (try_match_sms_to_orders c6DB c6Sms 0).2.map Order.oid = some 1
    ∧ ((try_match_sms_to_orders c6DB c6Sms 0).2.map
        (fun o => 500 - o.paymentRequired)) = some 100
    ∧ c6Order 21 ∈ c6DB.orders
    ∧ matchFilter 500 "910" (c6Order 21) = true
    ∧ 500 - (c6Order 21).paymentRequired = 0 := by
  refine ⟨by decide, by decide, by decide, by decide, by decide⟩

/-- C2's counterexample run: two distinct raw texts carrying the same RRN,
both submitted through the raw-text endpoint. -/
def c2State1 : DB := (receive_sms dbInit "hello RRN 77 a" 0).1

def c2State2 : DB := (receive_sms c2State1 "hello RRN 77 b" 0).1

/-- C2 counterexample: the raw-text ingestion deduplicates only on the
content fingerprint, so two different texts with the same reference number
are both stored — the reachable state `c2State2` holds two notifications
carrying RRN "77", refuting "a given reference number is attached to at most
one notification". -/
theorem C2_counterexample_duplicate_rrn_notifications :
    Reachable c2State2
    ∧ (c2State2.sms.filter (fun m => m.rrn == some "77")).length = 2 := by
  constructor
  · exact Relation.ReflTransGen.tail
      (Relation.ReflTransGen.tail Relation.ReflTransGen.refl
        (Step.recvSms dbInit "hello RRN 77 a" 0))
      (Step.recvSms c2State1 "hello RRN 77 b" 0)
  · decide

/-- C1's counterexample run: sign up, an admin credit of 100 paisa, a product
order that consumes the 100 from the wallet, then the expire job 1441 minutes
later. -/
def c1State1 : DB := (signup dbInit "alice").1

def c1State2 : DB := (admin_wallet_recharge c1State1 0 100 "manual recharge" 0).1

def c1State3 : DB := (create_product_order c1State2 0 "12345678" 500 0).1

def c1Final : DB := expire_old_orders c1State3 1441

/-- C1 counterexample: in the reachable state after the expire job refunds
the expired order's wallet portion, the refund transaction record carries no
balance-before/after fields (server.py:208-216 writes neither), refuting
"every wallet transaction record carries balance-before and balance-after
fields". -/
theorem C1_counterexample_unpaired_refund_tx :
    Reachable c1Final
    ∧ ¬ (∀ t ∈ c1Final.txs, t.balanceBefore.isSome ∧ t.balanceAfter.isSome)
    ∧ (c1Final.txs.map (fun t => (t.txType, t.balanceBefore, t.balanceAfter)))
        = [("credit", some 0, some 100), ("order_payment", some 100, some 0),
           ("refund", none, none)] := by
  refine ⟨?_, by decide, by decide⟩
  exact Relation.ReflTransGen.tail
    (Relation.ReflTransGen.tail
      (Relation.ReflTransGen.tail
        (Relation.ReflTransGen.tail Relation.ReflTransGen.refl
          (Step.signup dbInit "alice"))
        (Step.adminRecharge c1State1 0 100 "manual recharge" 0))
      (Step.productOrder c1State2 0 "12345678" 500 0))
    (Step.expire c1State3 1441)

/-! ### Helpers for the effect theorems -/

theorem find?_updateFirst {α : Type} (p : α → Bool) (f : α → α) (l : List α)
    (hp : ∀ a, p (f a) = p a) :
    (updateFirst p f l).find? p = (l.find? p).map f := by
  induction l with
  | nil => rfl
  | cons x xs ih =>
    by_cases hx : p x
    · simp only [updateFirst, hx, if_true,
        List.find?_cons_of_pos _ ((hp x).trans hx),
        List.find?_cons_of_pos _ hx]
      rfl
    · simp only [updateFirst, hx, Bool.false_eq_true, if_false,
        List.find?_cons_of_neg _ hx, ih]

theorem check_breaker_orders (db : DB) (now : Time) :
    (check_circuit_breaker db now).1.orders = db.orders := by
  simp only [check_circuit_breaker]
  repeat' split
  all_goals rfl

/-! ### C5: insufficient-funds debits -/

/-- C5, confirmed: a debit of a positive amount exceeding the user's balance
returns the insufficient-balance error with the state exactly unchanged — no
balance update and no transaction record (the check precedes every mutation
in `debit_wallet`); plus a concrete instance (balance 0, debit 50). -/
theorem C5_insufficient_debit_rejected :
    (∀ (db : DB) (userId : Nat) (u : User) (amount : Paisa) (ty : String)
        (oid : Option Nat) (descr : String) (now : Time),
      db.users.find? (fun v => v.uid == userId) = some u →
      0 < amount → u.balance < amount →
      debit_wallet db userId amount ty oid descr now
        = (db, Except.error "Insufficient wallet balance"))
    ∧ debit_wallet c9DB 0 50 "debit" none "redeem" 0
        = (c9DB, Except.error "Insufficient wallet balance") := by
  constructor
  · intro db userId u amount ty oid descr now hfind hpos hlt
    unfold debit_wallet
    rw [hfind, if_neg (not_le.mpr hpos)]
    dsimp only
    rw [if_pos hlt]
  · rfl

/-! ### C8: fulfillment retry policy -/

/-- C8's concrete scenario: one queued order, retry counter 0. -/
def c8DB : DB :=
  { users := [⟨0, "alice", 0, false⟩],
    orders := [{ baseOrder with walletUsed := 0, status := "queued" }],
    sms := [], txs := [], alerts := [], settings := defaultSettings,
    failures := [], nextId := 2 }

def c8Fail1 : DB := process_automation_order c8DB 1 true (false, "login_failed") 1

def c8Fail2 : DB := process_automation_order c8Fail1 1 true (false, "login_failed") 2

def c8Fail3 : DB := process_automation_order c8Fail2 1 true (false, "login_failed") 3

/-- C8, confirmed: for an order picked up in `queued` status with an active
Garena account, (i) the definitive `invalid_uid` verdict moves it to terminal
`invalid_uid`; (ii) any other failing verdict with incremented retry count
still below 3 returns it to `queued`; (iii) at incremented count ≥ 3 it goes
to `manual_review` with the count and failure reason recorded; (iv) an order
not in `queued` status (in particular `invalid_uid` or `manual_review`) is
never touched — no further automatic attempt; and concretely, three
consecutive transient failures drive a fresh order to `manual_review` with
`retry_count = 3`, after which a fourth run is a no-op. -/
theorem C8_retry_policy :
    (∀ (db : DB) (orderId : Nat) (o : Order) (now : Time),
      db.orders.find? (fun x => x.oid == orderId) = some o →
      o.status = "queued" →
      ((process_automation_order db orderId true (false, "invalid_uid") now).orders.find?
          (fun x => x.oid == orderId)).map
        (fun x => (x.status, x.retryCount))
        = some ("invalid_uid", o.retryCount + 1))
    ∧ (∀ (db : DB) (orderId : Nat) (o : Order) (msg : String) (now : Time),
      db.orders.find? (fun x => x.oid == orderId) = some o →
      o.status = "queued" → msg ≠ "invalid_uid" → o.retryCount + 1 < 3 →
      ((process_automation_order db orderId true (false, msg) now).orders.find?
          (fun x => x.oid == orderId)).map
        (fun x => (x.status, x.retryCount))
        = some ("queued", o.retryCount + 1))
    ∧ (∀ (db : DB) (orderId : Nat) (o : Order) (msg : String) (now : Time),
      db.orders.find? (fun x => x.oid == orderId) = some o →
      o.status = "queued" → msg ≠ "invalid_uid" → 3 ≤ o.retryCount + 1 →
      ((process_automation_order db orderId true (false, msg) now).orders.find?
          (fun x => x.oid == orderId)).map
        (fun x => (x.status, x.retryCount, x.suspiciousReason))
        = some ("manual_review", o.retryCount + 1,
                some ("Automation failed: " ++ msg)))
    ∧ (∀ (db : DB) (orderId : Nat) (o : Order) (hasGarena : Bool)
        (verdict : Bool × String) (now : Time),
      db.orders.find? (fun x => x.oid == orderId) = some o →
      o.status ≠ "queued" →
      process_automation_order db orderId hasGarena verdict now = db)
    ∧ c8Fail1.orders.map (fun x => (x.status, x.retryCount)) = [("queued", 1)]
    ∧ c8Fail2.orders.map (fun x => (x.status, x.retryCount)) = [("queued", 2)]
    ∧ c8Fail3.orders.map (fun x => (x.status, x.retryCount))
        = [("manual_review", 3)]
    ∧ process_automation_order c8Fail3 1 true (false, "login_failed") 4
        = c8Fail3 := by
  refine ⟨?_, ?_, ?_, ?_, by decide, by decide, by decide, by rfl⟩
  · intro db orderId o now hfind hq
    unfold process_automation_order
    rw [hfind]
    dsimp only
    rw [if_neg (show ¬ o.status ≠ "queued" by simp [hq]),
      if_neg (not_not_intro rfl), if_pos rfl, check_breaker_orders]
    dsimp only
    rw [find?_updateFirst, find?_updateFirst, hfind]
    · rfl
    · intro a; rfl
    · intro a; rfl
  · intro db orderId o msg now hfind hq hmsg hrc
    unfold process_automation_order
    rw [hfind]
    dsimp only
    rw [if_neg (show ¬ o.status ≠ "queued" by simp [hq]),
      if_neg (not_not_intro rfl), if_neg hmsg, if_pos hrc, check_breaker_orders]
    dsimp only
    rw [find?_updateFirst, find?_updateFirst, hfind]
    · rfl
    · intro a; rfl
    · intro a; rfl
  · intro db orderId o msg now hfind hq hmsg hrc
    unfold process_automation_order
    rw [hfind]
    dsimp only
    rw [if_neg (show ¬ o.status ≠ "queued" by simp [hq]),
      if_neg (not_not_intro rfl), if_neg hmsg,
      if_neg (show ¬ o.retryCount + 1 < 3 by omega), check_breaker_orders]
    dsimp only
    rw [find?_updateFirst, find?_updateFirst, hfind]
    · rfl
    · intro a; rfl
    · intro a; rfl
  · intro db orderId o hasGarena verdict now hfind hq
    unfold process_automation_order
    rw [hfind]
    dsimp only
    rw [if_pos hq]

/-! ### C4: the payment-safety decision table -/

/-- C4's concrete order: product top-up requiring 500 paisa, no wallet
portion, owned by user 0 whose balance is 0. -/
def c4Order : Order :=
  { baseOrder with
      walletUsed := 0, paymentRequired := 500, paymentAmount := 500,
      lockedPrice := 500 }

def c4DB : DB :=
  { users := [⟨0, "alice", 0, false⟩], orders := [c4Order], sms := [],
    txs := [], alerts := [], settings := defaultSettings, failures := [],
    nextId := 2 }

/-- The wallet-load variant: intended load 5000 paisa. -/
def c4LoadOrder : Order :=
  { c4Order with
      orderType := "wallet_load", loadAmount := 5000, playerUid := none }

def c4LoadDB : DB := { c4DB with orders := [c4LoadOrder] }

/-- C4, confirmed: `process_payment` implements the decision table with the
module-level thresholds — (i) payment beyond required × ratio 3 is rejected
as `suspicious` with the ledger untouched; (ii) an in-ratio surplus beyond
the 100000-paisa auto-credit ceiling is likewise `suspicious` with the
ledger untouched; (iii) otherwise the result is `paid` with the surplus
reported; concretely, required 500 with payment 1600 goes `suspicious`
(no transaction), required 500 with payment 700 goes `paid` with exactly one
`overpayment_credit` transaction of 200 (and nothing else), and the same
payment on a wallet-load order additionally credits the full 5000-paisa
intended load. -/
theorem C4_process_payment_decision_table :
    (∀ (db : DB) (order : Order) (payment : Paisa) (rrn : Option String)
        (raw fp : Option String) (now : Time),
      order.paymentRequired * MAX_OVERPAYMENT_RATIO < payment →
        (process_payment db order payment rrn raw fp now).2 = ("suspicious", 0)
        ∧ (process_payment db order payment rrn raw fp now).1.txs = db.txs
        ∧ (process_payment db order payment rrn raw fp now).1.users = db.users)
    ∧ (∀ (db : DB) (order : Order) (payment : Paisa) (rrn : Option String)
        (raw fp : Option String) (now : Time),
      ¬ order.paymentRequired * MAX_OVERPAYMENT_RATIO < payment →
      MAX_AUTO_CREDIT_AMOUNT_PAISA < max 0 (payment - order.paymentRequired) →
        (process_payment db order payment rrn raw fp now).2 = ("suspicious", 0)
        ∧ (process_payment db order payment rrn raw fp now).1.txs = db.txs
        ∧ (process_payment db order payment rrn raw fp now).1.users = db.users)
    ∧ (∀ (db : DB) (order : Order) (payment : Paisa) (rrn : Option String)
        (raw fp : Option String) (now : Time),
      ¬ order.paymentRequired * MAX_OVERPAYMENT_RATIO < payment →
      ¬ MAX_AUTO_CREDIT_AMOUNT_PAISA < max 0 (payment - order.paymentRequired) →
        (process_payment db order payment rrn raw fp now).2
          = ("paid", max 0 (payment - order.paymentRequired)))
    ∧ (process_payment c4DB c4Order 1600 none none none 0).2 = ("suspicious", 0)
    ∧ (process_payment c4DB c4Order 1600 none none none 0).1.orders.map
        (fun o => (o.status, o.suspiciousReason))
        = [("suspicious", some "overpayment_ratio_exceeded")]
    ∧ (process_payment c4DB c4Order 1600 none none none 0).1.txs = []
    ∧ (process_payment c4DB c4Order 700 none none none 0).2 = ("paid", 200)
    ∧ (process_payment c4DB c4Order 700 none none none 0).1.orders.map
        (fun o => (o.status, o.overpayment)) = [("paid", 200)]
    ∧ (process_payment c4DB c4Order 700 none none none 0).1.txs.map
        (fun t => (t.txType, t.amount, t.user, t.balanceBefore, t.balanceAfter))
        = [("overpayment_credit", 200, 0, some 0, some 200)]
    ∧ (process_payment c4DB c4Order 700 none none none 0).1.users.map User.balance
        = [200]
    ∧ (process_payment c4LoadDB c4LoadOrder 700 none none none 0).1.txs.map
        (fun t => (t.txType, t.amount))
        = [("overpayment_credit", 200), ("wallet_load", 5000)]
    ∧ (process_payment c4LoadDB c4LoadOrder 700 none none none 0).1.users.map
        User.balance = [5200] := by
  refine ⟨?_, ?_, ?_, by decide, by decide, by decide, by decide, by decide,
    by decide, by decide, by decide, by decide⟩
  · intro db order payment rrn raw fp now h1
    simp only [process_payment]
    rw [if_pos h1]
    exact ⟨rfl, rfl, rfl⟩
  · intro db order payment rrn raw fp now h1 h2
    simp only [process_payment]
    rw [if_neg h1, if_pos h2]
    exact ⟨rfl, rfl, rfl⟩
  · intro db order payment rrn raw fp now h1 h2
    simp only [process_payment]
    rw [if_neg h1, if_neg h2]

/-! ### C1: the ledger invariant, as the code actually maintains it -/

theorem refundTargets_pos (db : DB) (now : Time) :
    ∀ o ∈ refundTargets db now, 0 < o.walletUsed := by
  intro o ho
  have h1 := List.mem_of_mem_take ho
  have h2 := (List.mem_filter.mp h1).2
  simp only [Bool.and_eq_true, decide_eq_true_eq] at h2
  exact h2.2

theorem foldl_applyRefund_txs (l : List Order) (db : DB) (now : Time)
    (hl : ∀ o ∈ l, 0 < o.walletUsed) :
    (l.foldl (fun d o => applyRefund d o now) db).txs
      = db.txs ++ l.map (fun o => refundTx o now) := by
  induction l generalizing db with
  | nil => simp
  | cons o os ih =>
    have h0 : 0 < o.walletUsed := hl o (by simp)
    simp only [List.foldl_cons, List.map_cons]
    rw [ih _ (fun x hx => hl x (by simp [hx]))]
    simp [applyRefund, if_pos h0]

/-- C1, corrected: the balance/ledger sum invariant does hold in every
reachable state, and both `credit_wallet` and `debit_wallet` write exactly
one transaction whose balance-before/after fields are present and satisfy
`after = before + amount`; but the expire job's refund path appends, per
refunded order, one `refund` transaction built by `refundTx` — which restores
the wallet portion yet carries `none` in both balance fields (the claim's
"every wallet transaction record carries balance-before and balance-after
fields" fails, see the counterexample). -/
theorem C1_ledger_invariant_amended :
    (∀ (db : DB), Reachable db → ∀ u ∈ db.users, u.balance = txSum u.uid db.txs)
    ∧ (∀ (db : DB) (userId : Nat) (u : User) (amount : Paisa) (ty : String)
        (oid : Option Nat) (descr : String) (now : Time),
      db.users.find? (fun v => v.uid == userId) = some u → 0 < amount →
      (credit_wallet db userId amount ty oid descr now).1.txs
        = db.txs ++ [{ user := userId, txType := ty, amount := amount,
                       orderRef := oid, balanceBefore := some u.balance,
                       balanceAfter := some (u.balance + amount),
                       description := descr, createdAt := now }])
    ∧ (∀ (db : DB) (userId : Nat) (u : User) (amount : Paisa) (ty : String)
        (oid : Option Nat) (descr : String) (now : Time),
      db.users.find? (fun v => v.uid == userId) = some u → 0 < amount →
      amount ≤ u.balance →
      (debit_wallet db userId amount ty oid descr now).1.txs
        = db.txs ++ [{ user := userId, txType := ty, amount := -amount,
                       orderRef := oid, balanceBefore := some u.balance,
                       balanceAfter := some (u.balance - amount),
                       description := descr, createdAt := now }])
    ∧ (∀ (db : DB) (now : Time),
      (expire_old_orders db now).txs = db.txs
      ∨ (expire_old_orders db now).txs
          = db.txs ++ (refundTargets (expireStage1 db now) now).map
              (fun o => refundTx o now))
    ∧ (∀ (o : Order) (now : Time),
      (refundTx o now).amount = o.walletUsed
      ∧ (refundTx o now).balanceBefore = none
      ∧ (refundTx o now).balanceAfter = none) := by
  refine ⟨?_, ?_, ?_, ?_, fun o now => ⟨rfl, rfl, rfl⟩⟩
  · intro db hr u hu
    exact (inv_reachable hr).balanced u hu
  · intro db userId u amount ty oid descr now hfind hpos
    simp only [credit_wallet]
    rw [if_neg (not_le.mpr hpos), hfind]
  · intro db userId u amount ty oid descr now hfind hpos hle
    simp only [debit_wallet]
    rw [if_neg (not_le.mpr hpos), hfind]
    dsimp only
    rw [if_neg (not_lt.mpr hle)]
  · intro db now
    simp only [expire_old_orders]
    split
    · left; rfl
    · right
      rw [foldl_applyRefund_txs]
      · rfl
      · exact refundTargets_pos _ now

/-! ### C2: payment-evidence uniqueness, as the code actually enforces it -/

/-- C2, corrected: the content fingerprint is genuinely unique — no two
stored notifications in any reachable state share one, and a resubmission of
already-stored raw text is turned away by every ingestion path with the state
returned exactly unchanged (no order, balance, or transaction mutation); the
forwarder endpoint additionally rejects a reference-number reuse against its
stored notifications.  Reference-number uniqueness across notifications is
*not* an invariant, though: the raw-text endpoint deduplicates only on the
fingerprint (see the counterexample). -/
theorem C2_payment_evidence_amended :
    (∀ (db : DB), Reachable db →
      (db.sms.map SmsDoc.fingerprint).Pairwise (· ≠ ·))
    ∧ (∀ (db : DB) (raw : String) (now : Time) (parsed : ParsedSMS),
      parse_sms_message raw = Except.ok parsed →
      db.sms.any (fun m => m.fingerprint == pyStrip raw) = true →
      receive_sms db raw now
        = (db, Except.ok { duplicate := true, matched := none, orderId := none }))
    ∧ (∀ (db : DB) (raw : String) (now : Time) (parsed : ParsedSMS),
      parse_sms_message raw = Except.ok parsed →
      db.sms.any (fun m => m.fingerprint == pyStrip raw) = true →
      admin_input_sms db raw now = (db, Except.ok false))
    ∧ (∀ (db : DB) (req : IngestReq) (now : Time),
      db.sms.any (fun m => m.fingerprint == req.fingerprint) = true →
      sms_ingest db req now
        = (db, Except.ok { statusCode := 409, ok := false, status := "duplicate",
                           matched := none, matchedOrderId := none }))
    ∧ (∀ (db : DB) (req : IngestReq) (now : Time) (r : String),
      db.sms.any (fun m => m.fingerprint == req.fingerprint) = false →
      req.rrn = some r → (r == "") = false →
      db.sms.any (fun m => m.rrn == some r) = true →
      sms_ingest db req now
        = (db, Except.ok { statusCode := 409, ok := false, status := "duplicate",
                           matched := none, matchedOrderId := none })) := by
  refine ⟨?_, ?_, ?_, ?_, ?_⟩
  · intro db hr
    exact (inv_reachable hr).fpDistinct
  · intro db raw now parsed hparse hdup
    simp only [receive_sms]
    rw [hparse]
    dsimp only
    rw [if_pos hdup]
  · intro db raw now parsed hparse hdup
    simp only [admin_input_sms]
    rw [hparse]
    dsimp only
    rw [if_pos hdup]
  · intro db req now hdup
    simp only [sms_ingest]
    rw [if_pos hdup]
  · intro db req now r hfp hrrn hr hdup
    simp only [sms_ingest, hfp, Bool.false_eq_true, if_false, hrrn]
    rw [if_pos (by simp [hr, hdup])]

/-! ### C7: the circuit breaker over a run of failures

`process_automation_order`'s failure path records the failure time and then
runs the breaker check (server.py:962-969); `breakerStep` is exactly that
composition, and `breakerRun` iterates it over a list of failure times. -/

def breakerStep (db : DB) (t : Time) : DB :=
  (check_circuit_breaker
    { db with failures := record_automation_failure db.failures t } t).1

def breakerRun (db : DB) (ts : List Time) : DB := ts.foldl breakerStep db

theorem check_breaker_quiet (db : DB) (now : Time)
    (h : (db.failures.filter (fun t =>
        decide (now - (db.settings.automationFailWindowMinutes : Int) < t))).length
      < db.settings.automationFailThreshold) :
    check_circuit_breaker db now = (db, false) := by
  simp only [check_circuit_breaker]
  rw [if_neg (not_le.mpr h)]

theorem check_breaker_failures (db : DB) (now : Time) :
    (check_circuit_breaker db now).1.failures = db.failures := by
  simp only [check_circuit_breaker]
  repeat' split
  all_goals rfl

theorem record_length_le (fs : List Time) (t : Time) :
    (record_automation_failure fs t).length ≤ fs.length + 1 := by
  unfold record_automation_failure
  calc ((fs ++ [t]).filter _).length ≤ (fs ++ [t]).length :=
        List.length_filter_le _ _
    _ = fs.length + 1 := by simp

theorem breakerStep_quiet (db : DB) (t : Time)
    (h : db.failures.length + 1 < db.settings.automationFailThreshold) :
    breakerStep db t
      = { db with failures := record_automation_failure db.failures t } := by
  unfold breakerStep
  rw [check_breaker_quiet]
  exact lt_of_le_of_lt
    (le_trans (List.length_filter_le _ _) (record_length_le db.failures t)) h

theorem breakerRun_quiet (ts : List Time) (db : DB)
    (h : db.failures.length + ts.length < db.settings.automationFailThreshold) :
    breakerRun db ts
      = { db with failures :=
            ts.foldl (fun fs t => record_automation_failure fs t) db.failures } := by
  induction ts generalizing db with
  | nil => rfl
  | cons t ts ih =>
    simp only [List.length_cons] at h
    show breakerRun (breakerStep db t) ts = _
    rw [breakerStep_quiet db t (by omega)]
    refine ih _ ?_
    show (record_automation_failure db.failures t).length + ts.length
      < db.settings.automationFailThreshold
    have h2 := record_length_le db.failures t
    omega

theorem breakerRun_failures (ts : List Time) (db : DB) :
    (breakerRun db ts).failures
      = ts.foldl (fun fs t => record_automation_failure fs t) db.failures := by
  induction ts generalizing db with
  | nil => rfl
  | cons t ts ih =>
    show (breakerRun (breakerStep db t) ts).failures = _
    rw [ih, show (breakerStep db t).failures
        = record_automation_failure db.failures t from check_breaker_failures _ t]
    rfl

theorem foldl_record_eq_append (ts : List Time) (fs : List Time) (tN : Time)
    (hts : ∀ t ∈ ts, t ≤ tN)
    (hall : ∀ x ∈ fs ++ ts, tN - 30 < x) :
    ts.foldl (fun l t => record_automation_failure l t) fs = fs ++ ts := by
  induction ts generalizing fs with
  | nil => simp
  | cons t ts ih =>
    have hrec : record_automation_failure fs t = fs ++ [t] := by
      unfold record_automation_failure
      apply List.filter_eq_self.mpr
      intro x hx
      simp only [decide_eq_true_eq]
      have hle : t ≤ tN := hts t (by simp)
      rcases List.mem_append.mp hx with hm | hm
      · have h1 := hall x (List.mem_append.mpr (Or.inl hm))
        linarith
      · simp at hm
        subst hm
        have h1 := hall x (List.mem_append.mpr (Or.inr (by simp)))
        linarith
    simp only [List.foldl_cons, hrec]
    rw [ih (fs ++ [t]) (fun x hx => hts x (by simp [hx]))
      (by
        intro x hx
        refine hall x ?_
        rcases List.mem_append.mp hx with hm | hm
        · rcases List.mem_append.mp hm with hm' | hm'
          · exact List.mem_append.mpr (Or.inl hm')
          · simp at hm'
            subst hm'
            exact List.mem_append.mpr (Or.inr (by simp))
        · exact List.mem_append.mpr (Or.inr (by simp [hm])))]
    simp

theorem breakerStep_trip (db : DB) (t : Time)
    (hon : db.settings.autoTopup = true)
    (hcount : db.settings.automationFailThreshold ≤
      ((record_automation_failure db.failures t).filter
        (fun x => decide (t - (db.settings.automationFailWindowMinutes : Int) < x))).length) :
    breakerStep db t
      = pushAlert { db with
          failures := record_automation_failure db.failures t,
          settings := { db.settings with autoTopup := false } }
        { alertType := "circuit_breaker", severity := "critical",
          message := "auto_topup_disabled_by_circuit_breaker" } := by
  unfold breakerStep
  simp only [check_circuit_breaker]
  dsimp only
  rw [if_pos hcount, if_pos hon]

/-- C7's confirming concrete run: threshold 2, auto-fulfillment on, failures
at minutes 5 and 6 (window 10). -/
def c7OnDB : DB :=
  { users := [], orders := [], sms := [], txs := [], alerts := [],
    settings := { defaultSettings with
      automationFailThreshold := 2, autoTopup := true },
    failures := [], nextId := 0 }

/-- C7, corrected: starting from a clean failure log with auto-fulfillment
currently *on*, threshold `N` and the first `N` failure times all inside the
last `min(W, 30)` minutes (the recorder hard-prunes at 30 minutes regardless
of the configured window), the first `N − 1` recorded failures leave the
settings and alerts untouched, and the `N`-th flips `auto_topup` off and
appends exactly one critical `circuit_breaker` alert; concretely with
threshold 2 the second failure trips.  The claim's unconditional version
fails when `auto_topup` is already off — its default — where no alert is ever
created (see the counterexample). -/
theorem C7_breaker_amended :
    (∀ (db : DB) (ts : List Time) (tN : Time),
      db.settings.autoTopup = true →
      db.failures = [] →
      ts.length + 1 = db.settings.automationFailThreshold →
      (∀ t ∈ ts ++ [tN],
        t ≤ tN ∧ tN - min (db.settings.automationFailWindowMinutes : Int) 30 < t) →
      ((breakerRun db ts).settings = db.settings
        ∧ (breakerRun db ts).alerts = db.alerts)
      ∧ (breakerRun db (ts ++ [tN])).settings.autoTopup = false
      ∧ (breakerRun db (ts ++ [tN])).alerts
          = db.alerts ++ [{ alertType := "circuit_breaker", severity := "critical",
                            message := "auto_topup_disabled_by_circuit_breaker" }])
    ∧ (breakerRun c7OnDB [5]).settings = c7OnDB.settings
    ∧ (breakerRun c7OnDB [5]).alerts = []
    ∧ (breakerRun c7OnDB [5, 6]).settings.autoTopup = false
    ∧ (breakerRun c7OnDB [5, 6]).alerts.map (fun a => (a.alertType, a.severity))
        = [("circuit_breaker", "critical")] := by
  refine ⟨?_, by decide, by decide, by decide, by decide⟩
  intro db ts tN hon hfail0 hlen htimes
  have hW30 : min (db.settings.automationFailWindowMinutes : Int) 30 ≤ 30 :=
    min_le_right _ _
  have hWW : min (db.settings.automationFailWindowMinutes : Int) 30
      ≤ (db.settings.automationFailWindowMinutes : Int) := min_le_left _ _
  have hquiet := breakerRun_quiet ts db
    (by simp only [hfail0, List.length_nil, Nat.zero_add]; omega)
  have hq1 : (breakerRun db ts).settings = db.settings := by rw [hquiet]
  have hq2 : (breakerRun db ts).alerts = db.alerts := by rw [hquiet]
  have hfailsrun : (breakerRun db ts).failures = ts := by
    rw [breakerRun_failures, hfail0]
    rw [foldl_record_eq_append ts [] tN
      (fun t ht => (htimes t (List.mem_append.mpr (Or.inl ht))).1)
      (by
        intro x hx
        simp only [List.nil_append] at hx
        have h2 := (htimes x (List.mem_append.mpr (Or.inl hx))).2
        linarith)]
    simp
  have hrec : record_automation_failure ts tN = ts ++ [tN] := by
    unfold record_automation_failure
    apply List.filter_eq_self.mpr
    intro x hx
    simp only [decide_eq_true_eq]
    have h2 := (htimes x hx).2
    linarith
  have hfw : (ts ++ [tN]).filter
      (fun x => decide (tN - (db.settings.automationFailWindowMinutes : Int) < x))
        = ts ++ [tN] := by
    apply List.filter_eq_self.mpr
    intro x hx
    simp only [decide_eq_true_eq]
    have h2 := (htimes x hx).2
    linarith
  have hcount : (breakerRun db ts).settings.automationFailThreshold ≤
      ((record_automation_failure (breakerRun db ts).failures tN).filter
        (fun x => decide (tN -
          ((breakerRun db ts).settings.automationFailWindowMinutes : Int) < x))).length := by
    rw [hq1, hfailsrun, hrec, hfw]
    simp only [List.length_append, List.length_cons, List.length_nil]
    omega
  have htrip := breakerStep_trip (breakerRun db ts) tN (by rw [hq1]; exact hon) hcount
  have hrunapp : breakerRun db (ts ++ [tN]) = breakerStep (breakerRun db ts) tN := by
    simp only [breakerRun, List.foldl_append, List.foldl_cons, List.foldl_nil]
  refine ⟨⟨hq1, hq2⟩, ?_, ?_⟩
  · rw [hrunapp, htrip]
    rfl
  · rw [hrunapp, htrip]
    show (breakerRun db ts).alerts ++ _ = db.alerts ++ _
    rw [hq2]

/-! ### C6: the matcher's candidate pool and selection rule

`firstMin` is the specification-side selector — the first (oldest, since the
candidate list is creation-time ascending) element attaining the minimal
overpayment `amount − required`; the code's fold `selectBest` is proved equal
to it. -/

def firstMin (amount : Paisa) : List Order → Option Order
  | [] => none
  | o :: os =>
    match firstMin amount os with
    | none => some o
    | some b =>
      if amount - b.paymentRequired < amount - o.paymentRequired then some b
      else some o

theorem foldl_selectStep_some (amount : Paisa) (l : List Order) :
    ∀ b : Order, l.foldl (selectStep amount) (some b)
      = match firstMin amount l with
        | none => some b
        | some m =>
          if amount - m.paymentRequired < amount - b.paymentRequired then some m
          else some b := by
  induction l with
  | nil => intro b; rfl
  | cons o os ih =>
    intro b
    simp only [List.foldl_cons, selectStep, firstMin]
    by_cases hob : amount - o.paymentRequired < amount - b.paymentRequired
    · rw [if_pos hob, ih o]
      cases hm : firstMin amount os with
      | none =>
        dsimp only
        rw [if_pos hob]
      | some m =>
        dsimp only
        by_cases hmo : amount - m.paymentRequired < amount - o.paymentRequired
        · simp only [if_pos hmo]
          simp only [if_pos (lt_trans hmo hob)]
        · simp only [if_neg hmo]
          simp only [if_pos hob]
    · rw [if_neg hob, ih b]
      cases hm : firstMin amount os with
      | none =>
        dsimp only
        rw [if_neg hob]
      | some m =>
        dsimp only
        by_cases hmo : amount - m.paymentRequired < amount - o.paymentRequired
        · simp only [if_pos hmo]
        · simp only [if_neg hmo]
          simp only [if_neg hob,
            if_neg (not_lt.mpr (le_trans (not_lt.mp hob) (not_lt.mp hmo)))]

theorem selectBest_eq_firstMin (amount : Paisa) (l : List Order) :
    selectBest amount l = firstMin amount l := by
  cases l with
  | nil => rfl
  | cons o os =>
    show os.foldl (selectStep amount) (selectStep amount none o) = _
    rw [show selectStep amount none o = some o from rfl,
      foldl_selectStep_some amount os o]
    rfl

theorem firstMin_eq_none (amount : Paisa) :
    ∀ l : List Order, firstMin amount l = none ↔ l = [] := by
  intro l
  cases l with
  | nil => simp [firstMin]
  | cons o os =>
    simp only [firstMin]
    cases hb : firstMin amount os with
    | none => simp
    | some b =>
      dsimp only
      split <;> simp

theorem firstMin_spec (amount : Paisa) :
    ∀ (l : List Order) (m : Order), firstMin amount l = some m →
      m ∈ l ∧ ∀ o ∈ l, amount - m.paymentRequired ≤ amount - o.paymentRequired := by
  intro l
  induction l with
  | nil => intro m h; cases h
  | cons o os ih =>
    intro m h
    simp only [firstMin] at h
    cases hm : firstMin amount os with
    | none =>
      rw [hm] at h
      dsimp only at h
      have hmo : m = o := (Option.some.inj h).symm
      subst hmo
      have hos : os = [] := (firstMin_eq_none amount os).mp hm
      subst hos
      exact ⟨by simp, by simp⟩
    | some b =>
      rw [hm] at h
      dsimp only at h
      obtain ⟨hbm, hbmin⟩ := ih b hm
      by_cases hbo : amount - b.paymentRequired < amount - o.paymentRequired
      · rw [if_pos hbo] at h
        have hmb : m = b := (Option.some.inj h).symm
        subst hmb
        refine ⟨List.mem_cons_of_mem o hbm, ?_⟩
        intro x hx
        rcases List.mem_cons.mp hx with rfl | hin
        · exact le_of_lt hbo
        · exact hbmin x hin
      · rw [if_neg hbo] at h
        have hmo : m = o := (Option.some.inj h).symm
        subst hmo
        refine ⟨by simp, ?_⟩
        intro x hx
        rcases List.mem_cons.mp hx with rfl | hin
        · exact le_refl _
        · exact le_trans (not_lt.mp hbo) (hbmin x hin)

theorem firstMin_first (amount : Paisa) :
    ∀ (l : List Order) (m : Order), firstMin amount l = some m →
      ∃ l₁ l₂, l = l₁ ++ m :: l₂
        ∧ ∀ o ∈ l₁, amount - m.paymentRequired < amount - o.paymentRequired := by
  intro l
  induction l with
  | nil => intro m h; cases h
  | cons o os ih =>
    intro m h
    simp only [firstMin] at h
    cases hm : firstMin amount os with
    | none =>
      rw [hm] at h
      dsimp only at h
      have hmo : m = o := (Option.some.inj h).symm
      subst hmo
      exact ⟨[], os, rfl, by simp⟩
    | some b =>
      rw [hm] at h
      dsimp only at h
      by_cases hbo : amount - b.paymentRequired < amount - o.paymentRequired
      · rw [if_pos hbo] at h
        have hmb : m = b := (Option.some.inj h).symm
        subst hmb
        obtain ⟨l₁, l₂, heq, hlt⟩ := ih m hm
        refine ⟨o :: l₁, l₂, by simp [heq], ?_⟩
        intro x hx
        rcases List.mem_cons.mp hx with rfl | hin
        · exact hbo
        · exact hlt x hin
      · rw [if_neg hbo] at h
        have hmo : m = o := (Option.some.inj h).symm
        subst hmo
        exact ⟨[], os, rfl, by simp⟩

theorem mem_insertByCreated (o x : Order) : ∀ l : List Order,
    x ∈ insertByCreated o l ↔ x = o ∨ x ∈ l := by
  intro l
  induction l with
  | nil => simp [insertByCreated]
  | cons y ys ih =>
    simp only [insertByCreated]
    split
    · simp [List.mem_cons]
    · rw [List.mem_cons, ih, List.mem_cons]
      tauto

theorem mem_sortByCreated (x : Order) : ∀ l : List Order,
    x ∈ sortByCreated l ↔ x ∈ l := by
  intro l
  induction l with
  | nil => simp [sortByCreated]
  | cons y ys ih => simp [sortByCreated, mem_insertByCreated, ih]

theorem length_insertByCreated (o : Order) : ∀ l : List Order,
    (insertByCreated o l).length = l.length + 1 := by
  intro l
  induction l with
  | nil => rfl
  | cons y ys ih =>
    simp only [insertByCreated]
    split
    · simp
    · simp [ih]

theorem length_sortByCreated : ∀ l : List Order,
    (sortByCreated l).length = l.length := by
  intro l
  induction l with
  | nil => rfl
  | cons y ys ih => simp [sortByCreated, length_insertByCreated, ih]

theorem sorted_insertByCreated (o : Order) : ∀ l : List Order,
    l.Pairwise (fun a b => a.createdAt ≤ b.createdAt) →
    (insertByCreated o l).Pairwise (fun a b => a.createdAt ≤ b.createdAt) := by
  intro l
  induction l with
  | nil => intro _; simp [insertByCreated]
  | cons y ys ih =>
    intro hp
    rw [List.pairwise_cons] at hp
    obtain ⟨hy, hys⟩ := hp
    simp only [insertByCreated]
    split
    · rename_i hlt
      rw [List.pairwise_cons]
      refine ⟨?_, List.Pairwise.cons hy hys⟩
      intro z hz
      rcases List.mem_cons.mp hz with rfl | hin
      · exact le_of_lt hlt
      · exact le_trans (le_of_lt hlt) (hy z hin)
    · rename_i hge
      rw [List.pairwise_cons]
      refine ⟨?_, ih hys⟩
      intro z hz
      rcases (mem_insertByCreated o z ys).mp hz with rfl | hin
      · exact not_lt.mp hge
      · exact hy z hin

theorem sorted_sortByCreated : ∀ l : List Order,
    (sortByCreated l).Pairwise (fun a b => a.createdAt ≤ b.createdAt) := by
  intro l
  induction l with
  | nil => simp [sortByCreated]
  | cons y ys ih => exact sorted_insertByCreated y _ ih

/-- Whenever the matcher returns a match, that match is exactly the
fold-selected best of the (capped, sorted, filtered) candidate list — every
gate on the way either returns `none` or falls through with the state's
orders untouched. -/
theorem try_match_some_select (db : DB) (smsDoc : SmsDoc) (now : Time)
    (best : Order) (h : (try_match_sms_to_orders db smsDoc now).2 = some best) :
    ∃ (amount : Paisa) (last3 : String),
      smsDoc.amount = some amount ∧ smsDoc.last3 = some last3
        ∧ selectBest amount (matchCandidates db amount last3) = some best := by
  rcases ha : smsDoc.amount with _ | amount
  · simp only [try_match_sms_to_orders, ha] at h
    exact absurd h (by simp)
  · rcases hl : smsDoc.last3 with _ | last3
    · simp only [try_match_sms_to_orders, ha, hl] at h
      exact absurd h (by simp)
    · simp only [try_match_sms_to_orders, ha, hl] at h
      refine ⟨amount, last3, rfl, rfl, ?_⟩
      split at h
      · exact absurd h (by simp)
      · split at h
        · exact absurd h (by simp)
        · split at h
          · exact absurd h (by simp)
          · split at h
            · exact absurd h (by simp)
            · split at h
              · exact absurd h (by simp)
              · split at h
                · exact absurd h (by simp)
                · rename_i best1 hsel
                  split at h
                  · exact absurd h (by simp)
                  · split at h
                    · exact absurd h (by simp)
                    · rw [Option.some.inj h] at hsel
                      exact hsel

/-- C6's confirming concrete no-match run: the stored payment of 400 paisa is
below the only order's 50000 requirement, so the matcher reports no match and
returns the state exactly as given (the stored notification keeps
`used = false`). -/
def c6NoMatchSms : SmsDoc :=
  { c6Sms with amount := some 400, parsedAt := 20 }

/-- C6, corrected: the fold `selectBest` equals the first-minimum selector
`firstMin` — it picks a candidate of minimal overpayment `amount − required`
and, on ties, the earliest-listed (hence oldest, the pool being
creation-time ascending) — and it returns `none` exactly on an empty pool;
the pool `matchCandidates` holds only `pending_payment` orders with matching
last-3 digits and required ≤ paid, creation-time ascending, and is complete
whenever at most 20 orders qualify; every match the matcher returns is the
selected best of that pool.  The claim's "considers exactly the orders …
among all such candidates" fails because the pool is capped at the 20 oldest
(see the counterexample). -/
theorem C6_matcher_amended :
    (∀ (amount : Paisa) (l : List Order), selectBest amount l = firstMin amount l)
    ∧ (∀ (amount : Paisa) (l : List Order) (m : Order),
      firstMin amount l = some m →
      m ∈ l ∧ (∀ o ∈ l, amount - m.paymentRequired ≤ amount - o.paymentRequired)
        ∧ ∃ l₁ l₂, l = l₁ ++ m :: l₂
            ∧ ∀ o ∈ l₁, amount - m.paymentRequired < amount - o.paymentRequired)
    ∧ (∀ (amount : Paisa) (l : List Order), firstMin amount l = none ↔ l = [])
    ∧ (∀ (db : DB) (amount : Paisa) (last3 : String),
      (matchCandidates db amount last3).length ≤ 20
      ∧ (∀ o ∈ matchCandidates db amount last3,
          o ∈ db.orders ∧ o.status = "pending_payment"
            ∧ o.paymentLast3 = some last3 ∧ o.paymentRequired ≤ amount)
      ∧ ((db.orders.filter (matchFilter amount last3)).length ≤ 20 →
          ∀ o ∈ db.orders, matchFilter amount last3 o = true →
            o ∈ matchCandidates db amount last3)
      ∧ (matchCandidates db amount last3).Pairwise
          (fun a b => a.createdAt ≤ b.createdAt))
    ∧ (∀ (db : DB) (smsDoc : SmsDoc) (now : Time) (best : Order),
      (try_match_sms_to_orders db smsDoc now).2 = some best →
      ∃ (amount : Paisa) (last3 : String),
        smsDoc.amount = some amount ∧ smsDoc.last3 = some last3
          ∧ selectBest amount (matchCandidates db amount last3) = some best)
    ∧ try_match_sms_to_orders c3DB c6NoMatchSms 20 = (c3DB, none) := by
  refine ⟨selectBest_eq_firstMin, ?_, firstMin_eq_none, ?_, ?_, by rfl⟩
  · intro amount l m h
    obtain ⟨h1, h2⟩ := firstMin_spec amount l m h
    exact ⟨h1, h2, firstMin_first amount l m h⟩
  · intro db amount last3
    refine ⟨?_, ?_, ?_, ?_⟩
    · simp only [matchCandidates, List.length_take]
      exact min_le_left _ _
    · intro o ho
      have h1 : o ∈ sortByCreated (db.orders.filter (matchFilter amount last3)) :=
        List.mem_of_mem_take ho
      have h2 : o ∈ db.orders.filter (matchFilter amount last3) :=
        (mem_sortByCreated o _).mp h1
      have h3 := List.mem_filter.mp h2
      have h4 := h3.2
      simp only [matchFilter, Bool.and_eq_true, beq_iff_eq,
        decide_eq_true_eq] at h4
      exact ⟨h3.1, h4.1.1, h4.1.2, h4.2⟩
    · intro hlen o ho hf
      have hmem : o ∈ db.orders.filter (matchFilter amount last3) :=
        List.mem_filter.mpr ⟨ho, hf⟩
      have hslen : (sortByCreated (db.orders.filter (matchFilter amount last3))).length
          ≤ 20 := by
        rw [length_sortByCreated]
        exact hlen
      unfold matchCandidates
      rw [List.take_of_length_le hslen]
      exact (mem_sortByCreated o _).mpr hmem
    · exact (sorted_sortByCreated _).sublist (List.take_sublist _ _)
  · exact try_match_some_select

end NexStore
